import Mathlib

/-!
# The remote iterator of `ethdb/remotedb` (`remotedb_iterator.go`)

A shallow embedding of `RocksDB.NewIterator`, `newRemoteIterator` and the two
iterator types `noIterator` and `remoteIterator`.

## How the goroutines are embedded

`newRemoteIterator` starts one scanner goroutine per shard and one fetcher
goroutine per scan page, and joins them all with one `sync.WaitGroup`.  No
goroutine ever *reads* the state they share (`it.err` and the persist cache):
a scanner only reads the remote node it scans, a fetcher only reads the remote
values of its page.  So what a goroutine does is a function of the remote
cluster alone, and a goroutine touches the shared state at most once, at its
very end: a scanner by `it.err = err`, a fetcher by `it.err = err` or by one
`batch.Write()`.  Each of these is taken as one indivisible step.

The embedding follows that structure:

* `scanLoop` is the `for` loop of one scanner (lines 111-156); it returns the
  scan requests it issued, the pages it handed to fetchers and how it ended;
* `fetchPage` is the body of one fetcher (lines 125-151);
* `newRemoteIterator` collects the `Effect` of every goroutine and applies
  them to the shared state in the order chosen by a schedule `sched`.  As every
  goroutine has at most one effect and goroutines never wait for each other,
  every order of the effects is a possible execution; `interleave` turns a
  schedule into such an order, and theorems quantify over all schedules.

A run-time panic (a failed type assertion, `rand.Intn(0)`) kills the process,
so the build does not return: `Outcome.panicked`.  (The deferred `wg.Done()`
of a panicking goroutine runs before the process dies, so the caller can get
past `wg.Wait()` in that last instant; the embedding counts this as not
returning.  No error is assigned to `it.err` either way.)  Slices are taken
as values: that the `append` of line 108 may write into spare capacity of the
backing array of `prefix` is outside the embedding.  A scan whose cursor never
comes back to `"0"` does not return either; the loop is given `fuel`, and
`Outcome.outOfFuel` says that `fuel` scan requests were not enough.
-/

namespace RemoteDB

/-! ## Data model -/

/-- A Go `string` or the contents of a `[]byte`, as its sequence of characters. -/
abbrev Str := List Char

/-- A Go `[]byte` slice header: `none` is the `nil` slice. -/
abbrev Slice := Option Str

/-- A Go `error` value, by its message; the `nil` error is `none : Option Error`. -/
abbrev Error := String

/-- The contents of a slice; a `nil` slice has none. -/
def Slice.bytes : Slice → Str
  | none => []
  | some s => s

/-- Go `len(s)`. -/
def Slice.len (s : Slice) : Nat := (Slice.bytes s).length

/-- Go `s[:0]`: `nil` stays `nil`, any other slice becomes empty. -/
def Slice.trunc : Slice → Slice
  | none => none
  | some _ => some []

/-- The `REMOTE_BATCH_COUNT` variable: the `count` argument of every scan, `"100"`. -/
def REMOTE_BATCH_COUNT : Str := ['1', '0', '0']

/-- The cursor `"0"`, with which a scan starts and which ends it. -/
def cursorZero : Str := ['0']

/-- A Go `interface{}` value as the redis client returns it. -/
inductive Iface where
  | str (s : Str)
  | slice (xs : List Iface)
  | other (tag : Nat)
  deriving Repr

/-- One replica of a shard (`redis.ClusterNode`). -/
structure Node where
  Addr : Str
  deriving DecidableEq, Repr

/-- One shard of the cluster (`redis.ClusterSlot`) with its replicas. -/
structure ClusterSlot where
  Nodes : List Node
  deriving DecidableEq, Repr

/-- The remote cluster as the build sees it.
`clusterSlots` is the result of `db.client.ClusterSlots(ctx).Result()`;
`scan addr n cursor pattern count` is the result of the request
`nodeClient.Do(ctx, "scan", cursor, "match", pattern, "count", count).Slice()`
sent to node `addr` after `n` earlier requests of the same scanner;
`get key` is the result of one `pipe.Get(ctx, key)` of a pipeline. -/
structure Remote where
  clusterSlots : Except Error (List ClusterSlot)
  scan : Str → Nat → Str → Str → Str → Except Error (List Iface)
  get : Str → Except Error Str

/-- The key/value pairs queued in one `ethdb.Batch`, in the order of the `Put` calls. -/
abbrev Batch := List (Str × Str)

/-- Modelled from the spec: the contents of the local ordered cache
(`db.persistCache`, an `ethdb.KeyValueStore` whose implementation is not in
this file), as the list of its entries, one per key. -/
abbrev Cache := List (Str × Str)

/-- Modelled from the spec: reading one key of the local cache. -/
def cacheGet : Cache → Str → Option Str
  | [], _ => none
  | (k, v) :: rest, key => if k = key then some v else cacheGet rest key

/-- Modelled from the spec: one `Put` on the local cache; the value of an
existing key is replaced (last writer wins), a new key is added. -/
def cachePut : Cache → Str → Str → Cache
  | [], key, val => [(key, val)]
  | (k, v) :: rest, key, val =>
    if k = key then (key, val) :: rest else (k, v) :: cachePut rest key val

/-- Modelled from the spec: a successful `batch.Write()`: every queued `Put`
is applied, in order. -/
def cacheWrite : Cache → Batch → Cache
  | c, [] => c
  | c, (k, v) :: rest => cacheWrite (cachePut c k v) rest

/-- Modelled from the spec: what the build needs from the local ordered cache
besides its contents: whether `batch.Write()` fails (`writeErr`; a failed write
leaves the cache as it was, the write being atomic), and the iterator
`persistCache.NewIterator(prefix, start)` with the `ethdb.Iterator` methods
on its state `ι`. -/
structure CacheOps (ι : Type) where
  writeErr : Batch → Option Error
  newIterator : Cache → Slice → Slice → ι
  next : ι → Bool × ι
  key : ι → Slice
  value : ι → Slice
  error : ι → Option Error
  release : ι → ι

/-- A request that leaves the process during a build. -/
inductive Event where
  | clusterSlots
  | scan (addr cursor pattern count : Str)
  | pipeExec (keys : List Str)
  | batchWrite (b : Batch)
  | cacheIterator (pfx start : Slice)
  deriving DecidableEq, Repr

/-- How a call ends. -/
inductive Outcome (α : Type) where
  | returned (a : α)
  | panicked
  | outOfFuel
  deriving DecidableEq, Repr

/-! ## The scanner goroutine (lines 104-157) -/

/-- How the scan loop of one node ended. -/
inductive ScanEnd where
  | done
  | failed (e : Error)
  | panicked
  | outOfFuel
  deriving DecidableEq, Repr

/-- What one scanner goroutine did: the scan requests it sent, the pages it
handed to a fetcher goroutine each, in order, and how its loop ended. -/
structure ScanRun where
  requests : List Event
  pages : List (List Iface)
  status : ScanEnd
  deriving Repr

/-- The `for` loop of lines 111-156 against node `addr`, `n` requests having
been sent already, the next one with `cursor`. -/
def scanLoop (env : Remote) (addr pattern : Str) : Nat → Nat → Str → ScanRun
  | 0, _, _ => ⟨[], [], .outOfFuel⟩
  | fuel + 1, n, cursor =>
    let req := Event.scan addr cursor pattern REMOTE_BATCH_COUNT
    match env.scan addr n cursor pattern REMOTE_BATCH_COUNT with
    | .error e => ⟨[req], [], .failed e⟩
    | .ok res =>
      if res.length ≠ 2 then
        ⟨[req], [], .failed "remotedb iterator scan result format error"⟩
      else
        match res.get? 0 with
        | some (.str next) =>
          match res.get? 1 with
          | some (.slice keys) =>
            if next = cursorZero then ⟨[req], [keys], .done⟩
            else
              let r := scanLoop env addr pattern fuel (n + 1) next
              ⟨req :: r.requests, keys :: r.pages, r.status⟩
          | _ => ⟨[req], [], .panicked⟩
        | _ => ⟨[req], [], .panicked⟩

/-! ## The fetcher goroutine (lines 125-151) -/

/-- How one fetcher goroutine ended. -/
inductive FetchEnd where
  | skipped
  | written (b : Batch)
  | failed (e : Error)
  | panicked
  deriving DecidableEq, Repr

/-- What one fetcher goroutine did: its requests and how it ended. -/
structure FetchRun where
  events : List Event
  status : FetchEnd
  deriving DecidableEq, Repr

/-- The assertions `key.(string)` of the loop of lines 132-134: `none` when one panics. -/
def assertStrings : List Iface → Option (List Str)
  | [] => some []
  | .str s :: rest =>
    match assertStrings rest with
    | some ks => some (s :: ks)
    | none => none
  | _ :: _ => none

/-- The pipeline of lines 131-135: one `Get` per key, `Exec` failing with the
error of the first command that failed. -/
def pipeExec (get : Str → Except Error Str) : List Str → Except Error (List Str)
  | [] => .ok []
  | k :: ks =>
    match get k with
    | .error e => .error e
    | .ok v =>
      match pipeExec get ks with
      | .error e => .error e
      | .ok vs => .ok (v :: vs)

/-- The loop of lines 142-145: `batch.Put(keys[idx], vals[idx])` for every
index of the page; `none` when `vals[idx]` is out of range. -/
def putAll : List Str → List Str → Option Batch
  | [], _ => some []
  | _ :: _, [] => none
  | k :: ks, v :: vs =>
    match putAll ks vs with
    | some b => some ((k, v) :: b)
    | none => none

/-- The body of the fetcher goroutine for one page of keys. -/
def fetchPage {ι : Type} (ops : CacheOps ι) (env : Remote) (keys : List Iface) : FetchRun :=
  if keys.length = 0 then ⟨[], .skipped⟩
  else
    match assertStrings keys with
    | none => ⟨[], .panicked⟩
    | some ks =>
      match pipeExec env.get ks with
      | .error e => ⟨[.pipeExec ks], .failed e⟩
      | .ok vals =>
        match putAll ks vals with
        | none => ⟨[.pipeExec ks], .panicked⟩
        | some b =>
          match ops.writeErr b with
          | some e => ⟨[.pipeExec ks, .batchWrite b], .failed e⟩
          | none => ⟨[.pipeExec ks, .batchWrite b], .written b⟩

/-! ## The state the goroutines share, and the schedule -/

/-- What one goroutine does to the shared state, at its end. -/
inductive Effect where
  | record (e : Error)
  | write (b : Batch)
  deriving DecidableEq, Repr

/-- The state shared by the goroutines of one build: the slot `it.err`, the
contents of the persist cache, and (for the statements only) the errors
assigned to `it.err` so far, oldest first. -/
structure Shared where
  err : Option Error
  cache : Cache
  recorded : List Error
  deriving DecidableEq, Repr

/-- One goroutine's effect on the shared state: `it.err = e`, or `batch.Write()`. -/
def Shared.apply (s : Shared) : Effect → Shared
  | .record e => { s with err := some e, recorded := s.recorded ++ [e] }
  | .write b => { s with cache := cacheWrite s.cache b }

/-- The order in which pending effects take place under a schedule: each
number of the schedule picks one of the effects still pending; when the
schedule is used up the rest take place in the order given. -/
def interleave {α : Type} : List Nat → List α → List α
  | _, [] => []
  | [], x :: xs => x :: xs
  | n :: ns, x :: xs =>
    match (x :: xs)[n % (xs.length + 1)]? with
    | some y => y :: interleave ns ((x :: xs).eraseIdx (n % (xs.length + 1)))
    | none => x :: xs

/-- The errors a list of effects assigns to `it.err`, in order. -/
def Effect.errors : List Effect → List Error
  | [] => []
  | .record e :: rest => e :: Effect.errors rest
  | .write _ :: rest => Effect.errors rest

/-- The batches a list of effects writes to the cache, in order. -/
def Effect.batches : List Effect → List Batch
  | [] => []
  | .record _ :: rest => Effect.batches rest
  | .write b :: rest => b :: Effect.batches rest

/-! ## The build: `newRemoteIterator` (lines 84-165) -/

/-- The iterator type `remoteIterator` (lines 74-81); `pfx` is the field
`prefix` (a reserved word here), and the fields `db` and `cache`, which only
point to the database, are left out. -/
structure remoteIterator (ι : Type) where
  cacheIt : Option ι
  pfx : Slice
  start : Slice
  err : Option Error
  deriving DecidableEq, Repr

/-- Lines 101-102: the replica `shard.Nodes[r.Intn(len(shard.Nodes))]`, `seed`
being the number the random source draws; `none` when the shard has no node,
where `Intn` panics. -/
def pickNode (seed : Nat) (shard : ClusterSlot) : Option Node :=
  if shard.Nodes.length = 0 then none else shard.Nodes.get? (seed % shard.Nodes.length)

/-- The loop over the shards (lines 100-158): the run of the scanner of every
shard, the shards counted from `i`.  A shard without nodes panics. -/
def scanShards (env : Remote) (seeds : Nat → Nat) (pattern : Str) (fuel : Nat) :
    Nat → List ClusterSlot → List ScanRun
  | _, [] => []
  | i, shard :: rest =>
    (match pickNode (seeds i) shard with
     | none => ⟨[], [], .panicked⟩
     | some node => scanLoop env node.Addr pattern fuel 0 cursorZero)
      :: scanShards env seeds pattern fuel (i + 1) rest

/-- The effect of a fetcher on the shared state. -/
def fetchEffect : FetchEnd → List Effect
  | .written b => [.write b]
  | .failed e => [.record e]
  | _ => []

/-- The effect of a scanner on the shared state. -/
def scanEffect : ScanEnd → List Effect
  | .failed e => [.record e]
  | _ => []

/-- The effects of the fetchers of the pages of one scanner. -/
def pagesEffects {ι : Type} (ops : CacheOps ι) (env : Remote) : List (List Iface) → List Effect
  | [] => []
  | keys :: rest => fetchEffect (fetchPage ops env keys).status ++ pagesEffects ops env rest

/-- The requests of the fetchers of the pages of one scanner. -/
def pagesEvents {ι : Type} (ops : CacheOps ι) (env : Remote) : List (List Iface) → List Event
  | [] => []
  | keys :: rest => (fetchPage ops env keys).events ++ pagesEvents ops env rest

/-- The effects of all goroutines of a build: shard by shard, the fetchers of
a scanner in page order, then the scanner itself. -/
def buildEffects {ι : Type} (ops : CacheOps ι) (env : Remote) : List ScanRun → List Effect
  | [] => []
  | run :: rest =>
    pagesEffects ops env run.pages ++ scanEffect run.status ++ buildEffects ops env rest

/-- The requests of all goroutines of a build, goroutine by goroutine. -/
def buildEvents {ι : Type} (ops : CacheOps ι) (env : Remote) : List ScanRun → List Event
  | [] => []
  | run :: rest => run.requests ++ pagesEvents ops env run.pages ++ buildEvents ops env rest

/-- Whether a fetcher panicked. -/
def FetchEnd.isPanic : FetchEnd → Bool
  | .panicked => true
  | _ => false

/-- Whether a scanner, or one of its fetchers, panicked. -/
def ScanRun.panics {ι : Type} (ops : CacheOps ι) (env : Remote) (run : ScanRun) : Bool :=
  (match run.status with
   | .panicked => true
   | _ => false) || run.pages.any (fun keys => (fetchPage ops env keys).status.isPanic)

/-- Whether a scanner was still scanning when its fuel ran out. -/
def ScanRun.starved (run : ScanRun) : Bool :=
  match run.status with
  | .outOfFuel => true
  | _ => false

/-- What a build that returns leaves behind: the iterator, the contents of
the persist cache, the errors assigned to `it.err` during the build (oldest
first) and the requests made. -/
structure Built (ι : Type) where
  it : remoteIterator ι
  cache : Cache
  recorded : List Error
  trace : List Event
  deriving DecidableEq, Repr

/-- Line 108: the scan pattern `string(append(append(prefix, start...), "*"...))`. -/
def scanPattern (pfx start : Slice) : Str := Slice.bytes pfx ++ Slice.bytes start ++ ['*']

/-- The shared state when the wait group releases (line 160): the effects of
all goroutines, in the order the schedule gives them, applied to the empty
error slot and the cache as the build found it. -/
def sharedAfter {ι : Type} (ops : CacheOps ι) (env : Remote) (cache : Cache)
    (sched : List Nat) (runs : List ScanRun) : Shared :=
  (interleave sched (buildEffects ops env runs)).foldl Shared.apply
    { err := none, cache := cache, recorded := [] }

/-- The method `newRemoteIterator` on a database whose persist cache holds
`cache`.  `seeds i` is the random number drawn for shard `i`, `sched` the
schedule of the goroutines, `fuel` the number of scan requests a scanner may
make. -/
def newRemoteIterator {ι : Type} (ops : CacheOps ι) (env : Remote) (cache : Cache)
    (seeds : Nat → Nat) (sched : List Nat) (fuel : Nat) (pfx start : Slice) :
    Outcome (Built ι) :=
  let it : remoteIterator ι := { cacheIt := none, pfx := pfx, start := start, err := none }
  match env.clusterSlots with
  | .error e =>
    .returned { it := { it with err := some e }, cache := cache, recorded := [e],
                trace := [.clusterSlots] }
  | .ok shards =>
    let runs := scanShards env seeds (scanPattern pfx start) fuel 0 shards
    if runs.any (ScanRun.panics ops env) then .panicked
    else if runs.any ScanRun.starved then .outOfFuel
    else
      let st := sharedAfter ops env cache sched runs
      match st.err with
      | none =>
        .returned { it := { it with cacheIt := some (ops.newIterator st.cache pfx start) },
                    cache := st.cache, recorded := st.recorded,
                    trace := Event.clusterSlots :: buildEvents ops env runs
                      ++ [.cacheIterator pfx start] }
      | some e =>
        .returned { it := { it with err := some e }, cache := st.cache,
                    recorded := st.recorded,
                    trace := Event.clusterSlots :: buildEvents ops env runs }

/-! ## The methods of `remoteIterator` (lines 167-216) -/

/-- The method `Next` of lines 169-174: its result and the iterator after the call. -/
def remoteIterator.Next {ι : Type} (ops : CacheOps ι) (it : remoteIterator ι) :
    Bool × remoteIterator ι :=
  match it.cacheIt with
  | none => (false, it)
  | some c => ((ops.next c).1, { it with cacheIt := some (ops.next c).2 })

/-- The method `Error` of lines 178-186. -/
def remoteIterator.Error {ι : Type} (ops : CacheOps ι) (it : remoteIterator ι) : Option Error :=
  match it.err with
  | some e => some e
  | none =>
    match it.cacheIt with
    | none => some "persist cache iterator is nil"
    | some c => ops.error c

/-- The method `Key` of lines 191-196. -/
def remoteIterator.Key {ι : Type} (ops : CacheOps ι) (it : remoteIterator ι) : Slice :=
  match it.cacheIt with
  | none => none
  | some c => ops.key c

/-- The method `Value` of lines 201-206. -/
def remoteIterator.Value {ι : Type} (ops : CacheOps ι) (it : remoteIterator ι) : Slice :=
  match it.cacheIt with
  | none => none
  | some c => ops.value c

/-- The method `Release` of lines 210-216: the iterator after the call. -/
def remoteIterator.Release {ι : Type} (ops : CacheOps ι) (it : remoteIterator ι) :
    remoteIterator ι :=
  { it with
    pfx := Slice.trunc it.pfx
    start := Slice.trunc it.start
    cacheIt :=
      match it.cacheIt with
      | none => none
      | some c => some (ops.release c) }

/-! ## `noIterator` and `NewIterator` (lines 20-70) -/

/-- The iterator type `noIterator` (lines 21-22): a struct without fields. -/
structure noIterator where
  deriving DecidableEq, Repr

/-- The method `Next` of lines 31-33. -/
def noIterator.Next (it : noIterator) : Bool × noIterator := (false, it)

/-- The method `Error` of lines 37-39. -/
def noIterator.Error (_ : noIterator) : Option Error := some "noIterator not supported"

/-- The method `Key` of lines 44-46. -/
def noIterator.Key (_ : noIterator) : Slice := none

/-- The method `Value` of lines 51-53. -/
def noIterator.Value (_ : noIterator) : Slice := none

/-- The method `Release` of lines 57-59. -/
def noIterator.Release (it : noIterator) : noIterator := it

/-- An `ethdb.Iterator` as `NewIterator` returns it: one of the two types of this file. -/
inductive Iterator (ι : Type) where
  | no (it : noIterator)
  | remote (it : remoteIterator ι)
  deriving DecidableEq, Repr

/-- The interface method `Next`. -/
def Iterator.Next {ι : Type} (ops : CacheOps ι) : Iterator ι → Bool × Iterator ι
  | .no it => (it.Next.1, .no it.Next.2)
  | .remote it => ((it.Next ops).1, .remote (it.Next ops).2)

/-- The interface method `Error`. -/
def Iterator.Error {ι : Type} (ops : CacheOps ι) : Iterator ι → Option Error
  | .no it => it.Error
  | .remote it => it.Error ops

/-- The interface method `Key`. -/
def Iterator.Key {ι : Type} (ops : CacheOps ι) : Iterator ι → Slice
  | .no it => it.Key
  | .remote it => it.Key ops

/-- The interface method `Value`. -/
def Iterator.Value {ι : Type} (ops : CacheOps ι) : Iterator ι → Slice
  | .no it => it.Value
  | .remote it => it.Value ops

/-- The interface method `Release`. -/
def Iterator.Release {ι : Type} (ops : CacheOps ι) : Iterator ι → Iterator ι
  | .no it => .no it.Release
  | .remote it => .remote (it.Release ops)

/-- The iterator after `n` calls of `Next`. -/
def Iterator.afterNext {ι : Type} (ops : CacheOps ι) : Nat → Iterator ι → Iterator ι
  | 0, it => it
  | n + 1, it => Iterator.afterNext ops n (it.Next ops).2

/-- The database `RocksDB`, by the one field the iterator reads:
`persistCache`, `none` when the database has no local cache. -/
structure RocksDB where
  persistCache : Option Cache
  deriving DecidableEq, Repr

/-- The method `newNoIterator` of lines 25-27. -/
def newNoIterator (_ : RocksDB) : noIterator := {}

/-- What `NewIterator` leaves behind when it returns: the iterator, the
database and the requests made. -/
structure Opened (ι : Type) where
  it : Iterator ι
  db : RocksDB
  recorded : List Error
  trace : List Event
  deriving DecidableEq, Repr

/-- The method `NewIterator` of lines 65-70. -/
def NewIterator {ι : Type} (ops : CacheOps ι) (env : Remote) (db : RocksDB)
    (seeds : Nat → Nat) (sched : List Nat) (fuel : Nat) (pfx start : Slice) :
    Outcome (Opened ι) :=
  match db.persistCache with
  | none => .returned { it := .no (newNoIterator db), db := db, recorded := [], trace := [] }
  | some cache =>
    match newRemoteIterator ops env cache seeds sched fuel pfx start with
    | .returned b =>
      .returned { it := .remote b.it, db := { persistCache := some b.cache },
                  recorded := b.recorded, trace := b.trace }
    | .panicked => .panicked
    | .outOfFuel => .outOfFuel

/-- Every value of a batch is what the remote store answers for its key. -/
def Functional (get : Str → Except Error Str) (b : Batch) : Prop :=
  ∀ kv ∈ b, get kv.1 = .ok kv.2

/-- The node `addr` answers the scan of `pattern` that goes on, as request
number `n`, with `cursor`: first with the cursors and pages of `mid`, none of
these cursors being `"0"`, and then with the cursor `"0"` and the page `last`. -/
def Answers (env : Remote) (addr pattern : Str) :
    Nat → Str → List (Str × List Iface) → List Iface → Prop
  | n, cursor, [], last =>
    env.scan addr n cursor pattern REMOTE_BATCH_COUNT = .ok [.str cursorZero, .slice last]
  | n, cursor, (next, keys) :: rest, last =>
    env.scan addr n cursor pattern REMOTE_BATCH_COUNT = .ok [.str next, .slice keys]
      ∧ next ≠ cursorZero ∧ Answers env addr pattern (n + 1) next rest last

/-- The node `addr` answers the scan of `pattern` that goes on, as request
number `n`, with `cursor`: first with the cursors and pages of `mid`, none of
these cursors being `"0"`, and then the next request fails with `e`, or is
answered with a number of elements other than two (`e` is then the format
error of line 120). -/
def Fails (env : Remote) (addr pattern : Str) :
    Nat → Str → List (Str × List Iface) → Error → Prop
  | n, cursor, [], e =>
    env.scan addr n cursor pattern REMOTE_BATCH_COUNT = .error e ∨
      ∃ res, env.scan addr n cursor pattern REMOTE_BATCH_COUNT = .ok res ∧ res.length ≠ 2 ∧
        e = "remotedb iterator scan result format error"
  | n, cursor, (next, keys) :: rest, e =>
    env.scan addr n cursor pattern REMOTE_BATCH_COUNT = .ok [.str next, .slice keys]
      ∧ next ≠ cursorZero ∧ Fails env addr pattern (n + 1) next rest e

/-- Two scanners handed the same pages to fetchers and ended alike (their
requests may have gone to different replicas). -/
def ScanRun.sameOutcome (r₂ r₁ : ScanRun) : Prop :=
  r₂.pages = r₁.pages ∧ r₂.status = r₁.status

/-! ## Concrete caches and clusters, for the examples -/

/-- Modelled from the spec: the state of an iterator of an in-memory ordered
cache: the entries still to visit, in ascending key order, and the entry the
iterator stands on. -/
structure MemIter where
  pending : List (Str × Str)
  current : Option (Str × Str)
  deriving DecidableEq, Repr

/-- Modelled from the spec: an in-memory ordered cache whose writes never fail
and whose iterator visits, in ascending order, the keys that have the prefix
and are not below prefix ++ start. -/
def memOps : CacheOps MemIter where
  writeErr := fun _ => none
  newIterator := fun c pfx start =>
    { pending := (c.filter (fun kv => (Slice.bytes pfx).isPrefixOf kv.1
          && decide (Slice.bytes pfx ++ Slice.bytes start ≤ kv.1))).insertionSort
          (fun a b => a.1 ≤ b.1),
      current := none }
  next := fun it =>
    match it.pending with
    | [] => (false, { pending := [], current := none })
    | kv :: rest => (true, { pending := rest, current := some kv })
  key := fun it => it.current.map Prod.fst
  value := fun it => it.current.map Prod.snd
  error := fun _ => none
  release := fun _ => { pending := [], current := none }

/-- Whether a key matches a scan pattern that is a literal text followed by
one `*`, as the remote store decides it: the key starts with the text. -/
def matchesPattern (pattern key : Str) : Bool := pattern.dropLast.isPrefixOf key

/-- A cluster of one shard with one node that holds `store`; a scan answers
with all matching keys in one page and the cursor `"0"`, a `Get` of a key that
is not there fails. -/
def oneNodeRemote (store : List (Str × Str)) : Remote where
  clusterSlots := .ok [{ Nodes := [{ Addr := ['n', '1'] }] }]
  scan := fun _ _ _ pattern _ =>
    .ok [.str cursorZero,
         .slice (((store.map Prod.fst).filter (matchesPattern pattern)).map Iface.str)]
  get := fun k =>
    match cacheGet store k with
    | some v => .ok v
    | none => .error "redis: nil"

/-- A cluster of two shards: node `n1` answers its scan with the one key `a1`
(value `v1`), the scan of node `n2` fails. -/
def halfFailingRemote : Remote where
  clusterSlots := .ok [{ Nodes := [{ Addr := ['n', '1'] }] }, { Nodes := [{ Addr := ['n', '2'] }] }]
  scan := fun addr _ _ _ _ =>
    if addr = ['n', '1'] then .ok [.str cursorZero, .slice [.str ['a', '1']]]
    else .error "scan n2: connection reset"
  get := fun _ => .ok ['v', '1']

/-- A cluster of two shards whose scans both fail, each with its own error. -/
def bothFailingRemote : Remote where
  clusterSlots := .ok [{ Nodes := [{ Addr := ['n', '1'] }] }, { Nodes := [{ Addr := ['n', '2'] }] }]
  scan := fun addr _ _ _ _ =>
    if addr = ['n', '1'] then .error "scan n1: timeout"
    else .error "scan n2: connection reset"
  get := fun _ => .error "redis: nil"

/-- A cluster of one node that answers a scan in three pages of one key each:
cursor `"0"` gives (`"1"`, `k1`), `"1"` gives (`"2"`, `k2`), `"2"` gives (`"0"`, `k3`). -/
def threePageRemote : Remote where
  clusterSlots := .ok [{ Nodes := [{ Addr := ['n', '1'] }] }]
  scan := fun _ _ cursor _ _ =>
    if cursor = ['0'] then .ok [.str ['1'], .slice [.str ['k', '1']]]
    else if cursor = ['1'] then .ok [.str ['2'], .slice [.str ['k', '2']]]
    else .ok [.str ['0'], .slice [.str ['k', '3']]]
  get := fun k => .ok ('v' :: k)

/-- A cluster of one node whose scan answers with two elements, the first of
which is a number and not a string. -/
def illTypedRemote : Remote where
  clusterSlots := .ok [{ Nodes := [{ Addr := ['n', '1'] }] }]
  scan := fun _ _ _ _ _ => .ok [.other 7, .slice []]
  get := fun _ => .error "redis: nil"

/-- What the build over `halfFailingRemote` with an empty cache returns. -/
def halfFailingBuilt : Built MemIter where
  it := { cacheIt := none, pfx := none, start := none, err := some "scan n2: connection reset" }
  cache := [(['a', '1'], ['v', '1'])]
  recorded := ["scan n2: connection reset"]
  trace := [.clusterSlots,
    .scan ['n', '1'] ['0'] ['*'] ['1', '0', '0'],
    .pipeExec [['a', '1']],
    .batchWrite [(['a', '1'], ['v', '1'])],
    .scan ['n', '2'] ['0'] ['*'] ['1', '0', '0']]

/-- What the build over `bothFailingRemote` returns when the scanner of the
first shard fails first. -/
def bothFailingBuilt : Built MemIter where
  it := { cacheIt := none, pfx := none, start := none, err := some "scan n2: connection reset" }
  cache := []
  recorded := ["scan n1: timeout", "scan n2: connection reset"]
  trace := [.clusterSlots,
    .scan ['n', '1'] ['0'] ['*'] ['1', '0', '0'],
    .scan ['n', '2'] ['0'] ['*'] ['1', '0', '0']]

/-- A cluster of one node whose first page is empty: cursor `"0"` gives
(`"7"`, no key), cursor `"7"` gives (`"0"`, `k1`). -/
def emptyPageRemote : Remote where
  clusterSlots := .ok [{ Nodes := [{ Addr := ['n', '1'] }] }]
  scan := fun _ _ cursor _ _ =>
    if cursor = ['0'] then .ok [.str ['7'], .slice []]
    else .ok [.str ['0'], .slice [.str ['k', '1']]]
  get := fun k => .ok ('v' :: k)

/-- What a build over `threePageRemote` returns on a cache that holds the key
`zz`, when the fetcher of the third page writes first. -/
def threePageBuilt : Built MemIter :=
  { it :=
      { cacheIt := some
          { pending := [(['k', '1'], ['v', 'k', '1']), (['k', '2'], ['v', 'k', '2']),
                        (['k', '3'], ['v', 'k', '3']), (['z', 'z'], ['o'])],
            current := none },
        pfx := none, start := none, err := none },
    cache := [(['z', 'z'], ['o']), (['k', '3'], ['v', 'k', '3']),
              (['k', '1'], ['v', 'k', '1']), (['k', '2'], ['v', 'k', '2'])],
    recorded := [],
    trace := [.clusterSlots,
      .scan ['n', '1'] ['0'] ['*'] ['1', '0', '0'],
      .scan ['n', '1'] ['1'] ['*'] ['1', '0', '0'],
      .scan ['n', '1'] ['2'] ['*'] ['1', '0', '0'],
      .pipeExec [['k', '1']], .batchWrite [(['k', '1'], ['v', 'k', '1'])],
      .pipeExec [['k', '2']], .batchWrite [(['k', '2'], ['v', 'k', '2'])],
      .pipeExec [['k', '3']], .batchWrite [(['k', '3'], ['v', 'k', '3'])],
      .cacheIterator none none] }

/-- A cluster of one node whose scan answers with three elements. -/
def wrongLengthRemote : Remote where
  clusterSlots := .ok [{ Nodes := [{ Addr := ['n', '1'] }] }]
  scan := fun _ _ _ _ _ => .ok [.str ['0'], .slice [], .other 7]
  get := fun _ => .error "redis: nil"
/-- A cluster whose topology query fails. -/
def slotsFailingRemote : Remote where
  clusterSlots := .error "cluster slots: connection refused"
  scan := fun _ _ _ _ _ => .ok [.str ['0'], .slice []]
  get := fun _ => .error "redis: nil"

/-- A cluster of one shard with the two replicas `n1` and `n2`, which answer
a scan alike: one page with the key `a1` and the cursor `"0"`; the value of
every key is `v1`. -/
def twoReplicaRemote : Remote where
  clusterSlots := .ok [{ Nodes := [{ Addr := ['n', '1'] }, { Addr := ['n', '2'] }] }]
  scan := fun _ _ _ _ _ => .ok [.str ['0'], .slice [.str ['a', '1']]]
  get := fun _ => .ok ['v', '1']

/-- A cluster like `twoReplicaRemote` whose `Get` fails. -/
def getFailingRemote : Remote where
  clusterSlots := .ok [{ Nodes := [{ Addr := ['n', '1'] }, { Addr := ['n', '2'] }] }]
  scan := fun _ _ _ _ _ => .ok [.str ['0'], .slice [.str ['a', '1']]]
  get := fun _ => .error "mget: connection reset"

/-- Modelled from the spec: the in-memory ordered cache at a time when every
batch write fails. -/
def failingOps : CacheOps MemIter :=
  { memOps with writeErr := fun _ => some "persist cache: write failed" }

/-- What the build over `getFailingRemote` with an empty cache returns. -/
def getFailingBuilt : Built MemIter where
  it := { cacheIt := none, pfx := none, start := none, err := some "mget: connection reset" }
  cache := []
  recorded := ["mget: connection reset"]
  trace := [.clusterSlots,
    .scan ['n', '1'] ['0'] ['*'] ['1', '0', '0'],
    .pipeExec [['a', '1']]]

/-- What the build over `twoReplicaRemote` with an empty cache returns while
the cache fails every batch write. -/
def writeFailedBuilt : Built MemIter where
  it := { cacheIt := none, pfx := none, start := none,
          err := some "persist cache: write failed" }
  cache := []
  recorded := ["persist cache: write failed"]
  trace := [.clusterSlots,
    .scan ['n', '1'] ['0'] ['*'] ['1', '0', '0'],
    .pipeExec [['a', '1']],
    .batchWrite [(['a', '1'], ['v', '1'])]]

/-- What the build over `twoReplicaRemote` with an empty cache returns when
the writes succeed and the replica `n1` is drawn. -/
def twoReplicaBuilt : Built MemIter where
  it := { cacheIt := some { pending := [(['a', '1'], ['v', '1'])], current := none },
          pfx := none, start := none, err := none }
  cache := [(['a', '1'], ['v', '1'])]
  recorded := []
  trace := [.clusterSlots,
    .scan ['n', '1'] ['0'] ['*'] ['1', '0', '0'],
    .pipeExec [['a', '1']],
    .batchWrite [(['a', '1'], ['v', '1'])],
    .cacheIterator none none]

/-! # Theorems -/

/-! ## Lemmas on the schedule and the shared state -/

theorem perm_cons_eraseIdx {α : Type} : ∀ (l : List α) (i : Nat) (y : α),
    l.get? i = some y → (y :: l.eraseIdx i).Perm l
  | [], _, _, h => by simp at h
  | x :: xs, 0, y, h => by
    simp at h
    subst h
    simp
  | x :: xs, i + 1, y, h => by
    simp at h
    have ih := perm_cons_eraseIdx xs i y (by simpa using h)
    simp only [List.eraseIdx_cons_succ]
    exact (List.Perm.swap x y _).trans (List.Perm.cons x ih)

theorem interleave_perm {α : Type} : ∀ (sched : List Nat) (l : List α),
    (interleave sched l).Perm l
  | _, [] => by cases ‹List Nat› <;> simp [interleave]
  | [], x :: xs => by simp [interleave]
  | n :: ns, x :: xs => by
    simp only [interleave]
    cases h : (x :: xs)[n % (xs.length + 1)]? with
    | none => simp
    | some y =>
      simp only
      have h1 := interleave_perm ns ((x :: xs).eraseIdx (n % (xs.length + 1)))
      exact (List.Perm.cons y h1).trans (perm_cons_eraseIdx _ _ y (by simpa using h))

theorem foldl_apply_err_last (l : List Effect) : ∀ (s : Shared),
    s.err = s.recorded.getLast? →
    (l.foldl Shared.apply s).err = (l.foldl Shared.apply s).recorded.getLast? := by
  induction l with
  | nil => intro s h; simpa using h
  | cons x xs ih =>
    intro s h
    simp only [List.foldl_cons]
    apply ih
    cases x with
    | record e => simp [Shared.apply]
    | write b => simpa [Shared.apply] using h

theorem foldl_apply_recorded (l : List Effect) : ∀ (s : Shared),
    (l.foldl Shared.apply s).recorded = s.recorded ++ Effect.errors l := by
  induction l with
  | nil => intro s; simp [Effect.errors]
  | cons x xs ih =>
    intro s
    simp only [List.foldl_cons]
    rw [ih]
    cases x <;> simp [Shared.apply, Effect.errors]

theorem foldl_apply_cache (l : List Effect) : ∀ (s : Shared),
    (l.foldl Shared.apply s).cache = (Effect.batches l).foldl cacheWrite s.cache := by
  induction l with
  | nil => intro s; simp [Effect.batches]
  | cons x xs ih =>
    intro s
    simp only [List.foldl_cons]
    rw [ih]
    cases x <;> simp [Shared.apply, Effect.batches]

theorem newRemoteIterator_returned {ι : Type} (ops : CacheOps ι) (env : Remote) (cache : Cache)
    (seeds : Nat → Nat) (sched : List Nat) (fuel : Nat) (pfx start : Slice) (b : Built ι)
    (h : newRemoteIterator ops env cache seeds sched fuel pfx start = .returned b) :
    (∃ e, env.clusterSlots = .error e ∧
      b = { it := { cacheIt := none, pfx := pfx, start := start, err := some e },
            cache := cache, recorded := [e], trace := [.clusterSlots] }) ∨
    (∃ shards, env.clusterSlots = .ok shards ∧
      (scanShards env seeds (scanPattern pfx start) fuel 0 shards).any (ScanRun.panics ops env)
        = false ∧
      (scanShards env seeds (scanPattern pfx start) fuel 0 shards).any ScanRun.starved = false ∧
      b.cache = (sharedAfter ops env cache sched
        (scanShards env seeds (scanPattern pfx start) fuel 0 shards)).cache ∧
      b.recorded = (sharedAfter ops env cache sched
        (scanShards env seeds (scanPattern pfx start) fuel 0 shards)).recorded ∧
      b.it.err = (sharedAfter ops env cache sched
        (scanShards env seeds (scanPattern pfx start) fuel 0 shards)).err ∧
      b.it.pfx = pfx ∧ b.it.start = start ∧
      b.it.cacheIt = (match b.it.err with
        | none => some (ops.newIterator b.cache pfx start)
        | some _ => none)) := by
  unfold newRemoteIterator at h
  cases hc : env.clusterSlots with
  | error e =>
    left
    rw [hc] at h
    simp only [Outcome.returned.injEq] at h
    exact ⟨e, rfl, h.symm⟩
  | ok shards =>
    right
    rw [hc] at h
    simp only at h
    refine ⟨shards, rfl, ?_⟩
    split at h
    · cases h
    · split at h
      · cases h
      · rename_i hp hs
        split at h
        · rename_i he
          simp only [Outcome.returned.injEq] at h
          subst h
          simp [he] at hp hs ⊢
          exact ⟨by simpa using hp, by simpa using hs⟩
        · rename_i e he
          simp only [Outcome.returned.injEq] at h
          subst h
          simp [he] at hp hs ⊢
          exact ⟨by simpa using hp, by simpa using hs⟩

theorem sharedAfter_err_last {ι : Type} (ops : CacheOps ι) (env : Remote) (cache : Cache)
    (sched : List Nat) (runs : List ScanRun) :
    (sharedAfter ops env cache sched runs).err
      = (sharedAfter ops env cache sched runs).recorded.getLast? :=
  foldl_apply_err_last _ _ rfl

theorem errors_perm {l₁ l₂ : List Effect} (h : l₁.Perm l₂) :
    (Effect.errors l₁).Perm (Effect.errors l₂) := by
  induction h with
  | nil => exact List.Perm.refl _
  | cons x _ ih => cases x <;> simp [Effect.errors, ih]
  | swap x y l =>
    cases x <;> cases y <;> simp [Effect.errors]
    exact List.Perm.swap _ _ _
  | trans _ _ ih₁ ih₂ => exact ih₁.trans ih₂

theorem sharedAfter_recorded_perm {ι : Type} (ops : CacheOps ι) (env : Remote) (cache : Cache)
    (sched : List Nat) (runs : List ScanRun) :
    (sharedAfter ops env cache sched runs).recorded.Perm
      (Effect.errors (buildEffects ops env runs)) := by
  unfold sharedAfter
  rw [foldl_apply_recorded]
  simpa using errors_perm (interleave_perm sched (buildEffects ops env runs))

theorem afterNext_unbacked {ι : Type} (ops : CacheOps ι) (it : remoteIterator ι)
    (h : it.cacheIt = none) : ∀ n, Iterator.afterNext ops n (.remote it) = .remote it := by
  intro n
  induction n with
  | zero => rfl
  | succ n ih =>
    have : (Iterator.Next ops (.remote it)).2 = .remote it := by
      simp [Iterator.Next, remoteIterator.Next, h]
    simp only [Iterator.afterNext, this, ih]

theorem afterNext_no {ι : Type} (ops : CacheOps ι) (it : noIterator) :
    ∀ n, Iterator.afterNext ops n (.no it : Iterator ι) = .no it := by
  intro n
  induction n with
  | zero => rfl
  | succ n ih => simp only [Iterator.afterNext, Iterator.Next, noIterator.Next, ih]


/-- C3: on a database without a local cache (`persistCache` nil), `NewIterator`
returns, for every prefix and start and whatever the cluster would answer, the
null iterator, having made no request at all (no topology query, no scan, no
multi-get, no cache write, no cache iterator).  On that iterator, after any
number of calls of `Next`: `Next` returns false, `Error` returns the non-nil
error "noIterator not supported", `Key` and `Value` return nil; and `Release`
leaves the iterator as it is. -/
theorem C3_no_cache_null_iterator {ι : Type} (ops : CacheOps ι) (env : Remote) (db : RocksDB)
    (seeds : Nat → Nat) (sched : List Nat) (fuel : Nat) (pfx start : Slice)
    (h : db.persistCache = none) :
    NewIterator ops env db seeds sched fuel pfx start
      = .returned { it := .no {}, db := db, recorded := [], trace := [] } ∧
    (∀ n, ((Iterator.afterNext ops n (.no {} : Iterator ι)).Next ops).1 = false ∧
      (Iterator.afterNext ops n (.no {} : Iterator ι)).Error ops
        = some "noIterator not supported" ∧
      (Iterator.afterNext ops n (.no {} : Iterator ι)).Key ops = none ∧
      (Iterator.afterNext ops n (.no {} : Iterator ι)).Value ops = none ∧
      (Iterator.afterNext ops n (.no {} : Iterator ι)).Release ops = .no {}) := by
  constructor
  · simp [NewIterator, h, newNoIterator]
  · intro n
    rw [afterNext_no]
    simp [Iterator.Next, Iterator.Error, Iterator.Key, Iterator.Value, Iterator.Release,
      noIterator.Next, noIterator.Error, noIterator.Key, noIterator.Value, noIterator.Release]

/-- Witness of C3: a database without cache in front of a cluster whose scans
would fail; the iterator after three calls of `Next`. -/
theorem C3_no_cache_null_iterator_witness :
    NewIterator memOps bothFailingRemote { persistCache := none } (fun _ => 0) [] 1
        (some ['a']) none
      = .returned { it := .no {}, db := { persistCache := none }, recorded := [], trace := [] } ∧
    ((Iterator.afterNext memOps 3 (.no {} : Iterator MemIter)).Next memOps).1 = false ∧
    (Iterator.afterNext memOps 3 (.no {} : Iterator MemIter)).Error memOps
      = some "noIterator not supported" ∧
    (Iterator.afterNext memOps 3 (.no {} : Iterator MemIter)).Key memOps = none ∧
    (Iterator.afterNext memOps 3 (.no {} : Iterator MemIter)).Value memOps = none ∧
    (Iterator.afterNext memOps 3 (.no {} : Iterator MemIter)).Release memOps = .no {} :=
  ⟨(C3_no_cache_null_iterator memOps bothFailingRemote { persistCache := none } (fun _ => 0)
      [] 1 (some ['a']) none rfl).1,
   (C3_no_cache_null_iterator memOps bothFailingRemote { persistCache := none } (fun _ => 0)
      [] 1 (some ['a']) none rfl).2 3⟩

/-- C4: `Error` of a `remoteIterator` returns the recorded build error when
there is one, whatever `cacheIt` is; without a recorded error it returns the
error "persist cache iterator is nil" when `cacheIt` is nil, and otherwise
exactly what `Error` of the wrapped cache iterator returns (so nil when that
one has no error). -/
theorem C4_error_precedence {ι : Type} (ops : CacheOps ι) (it : remoteIterator ι) :
    (∀ e, it.err = some e → it.Error ops = some e) ∧
    (it.err = none → it.cacheIt = none → it.Error ops = some "persist cache iterator is nil") ∧
    (∀ c, it.err = none → it.cacheIt = some c → it.Error ops = ops.error c) := by
  refine ⟨?_, ?_, ?_⟩
  · intro e he
    simp [remoteIterator.Error, he]
  · intro he hc
    simp [remoteIterator.Error, he, hc]
  · intro c he hc
    simp [remoteIterator.Error, he, hc]

/-- Witness of C4: a backed iterator with a recorded error, an unbacked one
without, and a backed one without. -/
theorem C4_error_precedence_witness :
    remoteIterator.Error memOps
        { cacheIt := some { pending := [], current := none }, pfx := none, start := none,
          err := some "scan n1: timeout" } = some "scan n1: timeout" ∧
    remoteIterator.Error memOps
        { cacheIt := none, pfx := none, start := none, err := none }
      = some "persist cache iterator is nil" ∧
    remoteIterator.Error memOps
        { cacheIt := some { pending := [], current := none }, pfx := none, start := none,
          err := none } = none :=
  ⟨(C4_error_precedence memOps _).1 _ rfl,
   (C4_error_precedence memOps _).2.1 rfl rfl,
   (C4_error_precedence memOps _).2.2 _ rfl rfl⟩

/-- C5: `Release` of a `remoteIterator` is total (it cannot fail, for nil and
non-nil buffers, backed or not): afterwards `prefix` and `start` have length
zero (a nil buffer stays nil), `err` is what it was, `cacheIt` is nil exactly
when it was nil and otherwise holds the wrapped iterator after its own
`Release`.  When `Release` of the wrapped iterator is idempotent, a second
`Release` leaves the iterator as the first left it. -/
theorem C5_release_idempotent {ι : Type} (ops : CacheOps ι) (it : remoteIterator ι) :
    Slice.len (it.Release ops).pfx = 0 ∧ Slice.len (it.Release ops).start = 0 ∧
    ((it.Release ops).pfx = none ↔ it.pfx = none) ∧
    ((it.Release ops).start = none ↔ it.start = none) ∧
    (it.Release ops).err = it.err ∧
    ((it.Release ops).cacheIt = none ↔ it.cacheIt = none) ∧
    (∀ c, it.cacheIt = some c → (it.Release ops).cacheIt = some (ops.release c)) ∧
    ((∀ c, ops.release (ops.release c) = ops.release c) →
      (it.Release ops).Release ops = it.Release ops) := by
  obtain ⟨cacheIt, pfx, start, err⟩ := it
  refine ⟨?_, ?_, ?_, ?_, rfl, ?_, ?_, ?_⟩
  · cases pfx <;> rfl
  · cases start <;> rfl
  · cases pfx <;> simp [remoteIterator.Release, Slice.trunc]
  · cases start <;> simp [remoteIterator.Release, Slice.trunc]
  · cases cacheIt <;> simp [remoteIterator.Release]
  · intro c hc
    simp only at hc
    subst hc
    rfl
  · intro hidem
    cases cacheIt <;> cases pfx <;> cases start <;>
      simp [remoteIterator.Release, Slice.trunc, hidem]

/-- Witness of C5: a backed iterator over the in-memory cache, standing on an
entry, with a non-nil prefix and a nil start, released twice. -/
theorem C5_release_idempotent_witness :
    remoteIterator.Release memOps (remoteIterator.Release memOps
        { cacheIt := some { pending := [(['a', '2'], ['v'])], current := some (['a', '1'], ['v']) },
          pfx := some ['a'], start := none, err := none })
      = { cacheIt := some { pending := [], current := none }, pfx := some [], start := none,
          err := none } :=
  (C5_release_idempotent memOps
    { cacheIt := some { pending := [(['a', '2'], ['v'])], current := some (['a', '1'], ['v']) },
      pfx := some ['a'], start := none, err := none }).2.2.2.2.2.2.2 (fun _ => rfl)

/-- C10, as the code has it: every failing task assigns its error to `it.err`
without looking at it, so after the barrier the slot holds the error that was
assigned last, and that is the error `Error` reports; the slot is non-nil
exactly when some task failed, and the errors assigned are the errors of the
failing tasks of the build. -/
theorem C10_last_recorded_error_wins {ι : Type} (ops : CacheOps ι) (env : Remote)
    (cache : Cache) (seeds : Nat → Nat) (sched : List Nat) (fuel : Nat) (pfx start : Slice)
    (b : Built ι)
    (h : newRemoteIterator ops env cache seeds sched fuel pfx start = .returned b) :
    b.it.err = b.recorded.getLast? ∧
    (∀ e, b.recorded.getLast? = some e → b.it.Error ops = some e) ∧
    (b.it.err = none ↔ b.recorded = []) ∧
    (∀ shards, env.clusterSlots = .ok shards →
      b.recorded.Perm (Effect.errors (buildEffects ops env
        (scanShards env seeds (scanPattern pfx start) fuel 0 shards)))) := by
  have key : b.it.err = b.recorded.getLast? := by
    rcases newRemoteIterator_returned ops env cache seeds sched fuel pfx start b h with
      ⟨e, _, hb⟩ | ⟨shards, _, _, _, _, hrec, herr, _, _, _⟩
    · subst hb
      rfl
    · rw [herr, hrec]
      exact sharedAfter_err_last _ _ _ _ _
  refine ⟨key, ?_, ?_, ?_⟩
  · intro e he
    rw [← key] at he
    simp [remoteIterator.Error, he]
  · rw [key]
    exact List.getLast?_eq_none_iff
  · intro shards hs
    rcases newRemoteIterator_returned ops env cache seeds sched fuel pfx start b h with
      ⟨e, he, _⟩ | ⟨shards', hs', _, _, _, hrec, _, _, _, _⟩
    · rw [hs] at he
      cases he
    · rw [hs] at hs'
      cases hs'
      rw [hrec]
      exact sharedAfter_recorded_perm _ _ _ _ _

/-- Witness of C10 as amended: the build over the cluster whose two scans
fail, the second shard's scanner failing last. -/
theorem C10_last_recorded_error_wins_witness :
    newRemoteIterator memOps bothFailingRemote [] (fun _ => 0) [] 1 none none
      = .returned bothFailingBuilt ∧
    bothFailingBuilt.it.err = bothFailingBuilt.recorded.getLast? ∧
    bothFailingBuilt.it.Error memOps = some "scan n2: connection reset" :=
  ⟨rfl,
   (C10_last_recorded_error_wins memOps bothFailingRemote [] (fun _ => 0) [] 1 none none
      bothFailingBuilt rfl).1,
   (C10_last_recorded_error_wins memOps bothFailingRemote [] (fun _ => 0) [] 1 none none
      bothFailingBuilt rfl).2.1 _ rfl⟩

/-- C10 as stated fails: both scanners of a build fail, the scanner of the
first shard first ("scan n1: timeout"), the scanner of the second shard after
it; the slot, and `Error` of the returned iterator, hold the error of the
second, not of the first task that failed. -/
theorem C10_counterexample_first_error_replaced :
    newRemoteIterator memOps bothFailingRemote [] (fun _ => 0) [] 1 none none
      = .returned bothFailingBuilt ∧
    bothFailingBuilt.recorded.head? = some "scan n1: timeout" ∧
    bothFailingBuilt.it.Error memOps = some "scan n2: connection reset" ∧
    bothFailingBuilt.it.Error memOps ≠ bothFailingBuilt.recorded.head? :=
  ⟨rfl, rfl, rfl, by decide⟩

/-! ## Lemmas on the cache -/

theorem cacheGet_cachePut (c : Cache) (k v k' : Str) :
    cacheGet (cachePut c k v) k' = if k = k' then some v else cacheGet c k' := by
  induction c with
  | nil => simp [cachePut, cacheGet]
  | cons x xs ih =>
    obtain ⟨a, w⟩ := x
    by_cases hak : a = k
    · subst hak
      by_cases hak' : a = k' <;> simp [cachePut, cacheGet, hak']
    · by_cases hak' : a = k'
      · subst hak'
        have : ¬ k = a := fun h => hak h.symm
        simp [cachePut, cacheGet, hak, this]
      · simp [cachePut, cacheGet, hak, hak', ih]

theorem cachePut_same (c : Cache) (k v : Str) (h : cacheGet c k = some v) :
    cachePut c k v = c := by
  induction c with
  | nil => simp [cacheGet] at h
  | cons x xs ih =>
    obtain ⟨a, w⟩ := x
    by_cases hak : a = k
    · subst hak
      simp [cacheGet] at h
      simp [cachePut, h]
    · simp [cacheGet, hak] at h
      simp [cachePut, hak, ih h]

theorem cacheWrite_same (b : Batch) : ∀ (c : Cache),
    (∀ kv ∈ b, cacheGet c kv.1 = some kv.2) → cacheWrite c b = c := by
  induction b with
  | nil => intro c _; rfl
  | cons x xs ih =>
    intro c h
    obtain ⟨k, v⟩ := x
    have hk : cachePut c k v = c := cachePut_same c k v (h (k, v) (by simp))
    simp only [cacheWrite, hk]
    exact ih c (fun kv hkv => h kv (by simp [hkv]))

theorem foldl_cacheWrite_same (bs : List Batch) (c : Cache)
    (h : ∀ b ∈ bs, ∀ kv ∈ b, cacheGet c kv.1 = some kv.2) :
    bs.foldl cacheWrite c = c := by
  induction bs with
  | nil => rfl
  | cons b rest ih =>
    simp only [List.foldl_cons]
    rw [cacheWrite_same b c (h b (by simp))]
    exact ih (fun b' hb' => h b' (by simp [hb']))

theorem cacheWrite_keeps (b : Batch) : ∀ (c : Cache) (k : Str),
    cacheGet c k ≠ none → cacheGet (cacheWrite c b) k ≠ none := by
  induction b with
  | nil => intro c k h; exact h
  | cons x xs ih =>
    intro c k h
    obtain ⟨a, w⟩ := x
    simp only [cacheWrite]
    apply ih
    rw [cacheGet_cachePut]
    split
    · simp
    · exact h

theorem foldl_cacheWrite_keeps (bs : List Batch) : ∀ (c : Cache) (k : Str),
    cacheGet c k ≠ none → cacheGet (bs.foldl cacheWrite c) k ≠ none := by
  induction bs with
  | nil => intro c k h; exact h
  | cons b rest ih =>
    intro c k h
    simp only [List.foldl_cons]
    exact ih _ k (cacheWrite_keeps b c k h)

theorem cacheWrite_get (get : Str → Except Error Str) (k v : Str) (hk : get k = .ok v)
    (b : Batch) : ∀ (c : Cache), Functional get b →
    ((k, v) ∈ b ∨ cacheGet c k = some v) → cacheGet (cacheWrite c b) k = some v := by
  induction b with
  | nil =>
    intro c _ h
    rcases h with h | h
    · simp at h
    · exact h
  | cons x xs ih =>
    intro c hf h
    obtain ⟨a, w⟩ := x
    simp only [cacheWrite]
    have hf' : Functional get xs := fun kv hkv => hf kv (by simp [hkv])
    have haw : get a = .ok w := hf (a, w) (by simp)
    apply ih _ hf'
    rcases h with h | h
    · simp only [List.mem_cons, Prod.mk.injEq] at h
      rcases h with ⟨h1, h2⟩ | h
      · right
        subst h1 h2
        simp [cacheGet_cachePut]
      · exact Or.inl h
    · right
      rw [cacheGet_cachePut]
      split
      · rename_i hak
        subst hak
        rw [hk] at haw
        cases haw
        rfl
      · exact h

theorem foldl_cacheWrite_get (get : Str → Except Error Str) (k v : Str) (hk : get k = .ok v)
    (bs : List Batch) : ∀ (c : Cache), (∀ b ∈ bs, Functional get b) →
    ((∃ b ∈ bs, (k, v) ∈ b) ∨ cacheGet c k = some v) →
    cacheGet (bs.foldl cacheWrite c) k = some v := by
  induction bs with
  | nil =>
    intro c _ h
    rcases h with ⟨b, hb, _⟩ | h
    · simp at hb
    · exact h
  | cons b rest ih =>
    intro c hf h
    simp only [List.foldl_cons]
    apply ih _ (fun b' hb' => hf b' (by simp [hb']))
    rcases h with ⟨b', hb', hkv⟩ | h
    · simp only [List.mem_cons] at hb'
      rcases hb' with hb' | hb'
      · subst hb'
        exact Or.inr (cacheWrite_get get k v hk b' c (hf b' (by simp)) (Or.inl hkv))
      · exact Or.inl ⟨b', hb', hkv⟩
    · exact Or.inr (cacheWrite_get get k v hk b c (hf b (by simp)) (Or.inr h))

theorem batches_perm {l₁ l₂ : List Effect} (h : l₁.Perm l₂) :
    (Effect.batches l₁).Perm (Effect.batches l₂) := by
  induction h with
  | nil => exact List.Perm.refl _
  | cons x _ ih => cases x <;> simp [Effect.batches, ih]
  | swap x y l =>
    cases x <;> cases y <;> simp [Effect.batches]
    exact List.Perm.swap _ _ _
  | trans _ _ ih₁ ih₂ => exact ih₁.trans ih₂

theorem sharedAfter_cache {ι : Type} (ops : CacheOps ι) (env : Remote) (cache : Cache)
    (sched : List Nat) (runs : List ScanRun) :
    (sharedAfter ops env cache sched runs).cache
      = (Effect.batches (interleave sched (buildEffects ops env runs))).foldl cacheWrite cache := by
  unfold sharedAfter
  rw [foldl_apply_cache]

theorem mem_batches_interleave {ι : Type} (ops : CacheOps ι) (env : Remote)
    (sched : List Nat) (runs : List ScanRun) (b : Batch) :
    b ∈ Effect.batches (interleave sched (buildEffects ops env runs))
      ↔ b ∈ Effect.batches (buildEffects ops env runs) :=
  (batches_perm (interleave_perm sched (buildEffects ops env runs))).mem_iff

/-! ## Lemmas on the fetcher -/

theorem assertStrings_map_str (ks : List Str) : assertStrings (ks.map Iface.str) = some ks := by
  induction ks with
  | nil => rfl
  | cons k rest ih => simp [assertStrings, ih]

theorem pipeExec_length (get : Str → Except Error Str) : ∀ (ks vals : List Str),
    pipeExec get ks = .ok vals → vals.length = ks.length := by
  intro ks
  induction ks with
  | nil =>
    intro vals h
    simp [pipeExec] at h
    simp [← h]
  | cons k rest ih =>
    intro vals h
    simp only [pipeExec] at h
    split at h
    · cases h
    · split at h
      · cases h
      · rename_i vs hvs
        cases h
        simp [ih vs hvs]

theorem pipeExec_functional (get : Str → Except Error Str) : ∀ (ks vals : List Str),
    pipeExec get ks = .ok vals → Functional get (ks.zip vals) := by
  intro ks
  induction ks with
  | nil =>
    intro vals _ kv hkv
    simp at hkv
  | cons k rest ih =>
    intro vals h
    simp only [pipeExec] at h
    split at h
    · cases h
    · rename_i v hv
      split at h
      · cases h
      · rename_i vs hvs
        cases h
        intro kv hkv
        simp only [List.zip_cons_cons, List.mem_cons] at hkv
        rcases hkv with hkv | hkv
        · subst hkv
          exact hv
        · exact ih vs hvs kv hkv

theorem putAll_eq_zip : ∀ (ks vals : List Str) (b : Batch),
    putAll ks vals = some b → b = ks.zip vals
  | [], _, b, h => by
    simp [putAll] at h
    simp [← h]
  | _ :: _, [], b, h => by simp [putAll] at h
  | k :: ks, v :: vs, b, h => by
    simp only [putAll] at h
    split at h
    · rename_i b' hb'
      cases h
      simp [putAll_eq_zip ks vs b' hb']
    · cases h

theorem putAll_of_length : ∀ (ks vals : List Str),
    vals.length = ks.length → putAll ks vals = some (ks.zip vals)
  | [], _, _ => by simp [putAll]
  | _ :: _, [], h => by simp at h
  | k :: ks, v :: vs, h => by
    have := putAll_of_length ks vs (by simpa using h)
    simp [putAll, this]

theorem fetchPage_written_functional {ι : Type} (ops : CacheOps ι) (env : Remote)
    (keys : List Iface) (b : Batch) (h : (fetchPage ops env keys).status = .written b) :
    Functional env.get b := by
  unfold fetchPage at h
  split at h
  · cases h
  · split at h
    · cases h
    · rename_i ks _
      split at h
      · cases h
      · rename_i vals hvals
        split at h
        · cases h
        · rename_i b' hb'
          split at h
          · cases h
          · simp only [FetchEnd.written.injEq] at h
            subst h
            rw [putAll_eq_zip ks vals b' hb']
            exact pipeExec_functional env.get ks vals hvals

/-- C8: the fetcher of one page.  For an empty page it returns at once: no
multi-get, no write, the shared state (cache and error slot) as it was.  For a
non-empty page of keys `ks` whose pipelined multi-get succeeds with `vals`:
there is one value per key, the fetcher makes one multi-get and one batch
write, the batch holds exactly the pairs of `ks[i]` and `vals[i]` in page
order, and when the write succeeds the cache is the old cache with that batch
written while the error slot is untouched.  When the multi-get fails with `e`,
the fetcher makes no write: the cache is as it was and `e` is assigned to the
error slot. -/
theorem C8_page_fetcher {ι : Type} (ops : CacheOps ι) (env : Remote) :
    (fetchPage ops env [] = { events := [], status := .skipped } ∧
      ∀ s : Shared, (fetchEffect (fetchPage ops env []).status).foldl Shared.apply s = s) ∧
    (∀ ks vals, ks ≠ [] → pipeExec env.get ks = .ok vals →
      vals.length = ks.length ∧
      (ks.zip vals).map Prod.fst = ks ∧ (ks.zip vals).map Prod.snd = vals ∧
      (fetchPage ops env (ks.map Iface.str)).events
        = [.pipeExec ks, .batchWrite (ks.zip vals)] ∧
      (∀ e, ops.writeErr (ks.zip vals) = some e →
        (fetchPage ops env (ks.map Iface.str)).status = .failed e) ∧
      (ops.writeErr (ks.zip vals) = none →
        (fetchPage ops env (ks.map Iface.str)).status = .written (ks.zip vals) ∧
        ∀ s : Shared,
          (fetchEffect (fetchPage ops env (ks.map Iface.str)).status).foldl Shared.apply s
            = { s with cache := cacheWrite s.cache (ks.zip vals) })) ∧
    (∀ ks e, ks ≠ [] → pipeExec env.get ks = .error e →
      fetchPage ops env (ks.map Iface.str) = { events := [.pipeExec ks], status := .failed e } ∧
      ∀ s : Shared,
        (fetchEffect (fetchPage ops env (ks.map Iface.str)).status).foldl Shared.apply s
          = { s with err := some e, recorded := s.recorded ++ [e] }) := by
  refine ⟨⟨rfl, fun s => rfl⟩, ?_, ?_⟩
  · intro ks vals hne hvals
    have hlen := pipeExec_length env.get ks vals hvals
    have hne' : ¬ (List.map Iface.str ks).length = 0 := by
      simpa using hne
    have hput := putAll_of_length ks vals hlen
    refine ⟨hlen, ?_, ?_, ?_, ?_, ?_⟩
    · exact List.map_fst_zip _ _ (by omega)
    · exact List.map_snd_zip _ _ (by omega)
    · unfold fetchPage
      rw [if_neg hne']
      simp only [assertStrings_map_str, hvals, hput]
      cases ops.writeErr (ks.zip vals) <;> rfl
    · intro e he
      unfold fetchPage
      rw [if_neg hne']
      simp only [assertStrings_map_str, hvals, hput, he]
    · intro he
      have hst : (fetchPage ops env (ks.map Iface.str)).status = .written (ks.zip vals) := by
        unfold fetchPage
        rw [if_neg hne']
        simp only [assertStrings_map_str, hvals, hput, he]
      refine ⟨hst, fun s => ?_⟩
      rw [hst]
      rfl
  · intro ks e hne herr
    have hne' : ¬ (List.map Iface.str ks).length = 0 := by
      simpa using hne
    have hfp : fetchPage ops env (ks.map Iface.str)
        = { events := [.pipeExec ks], status := .failed e } := by
      unfold fetchPage
      rw [if_neg hne']
      simp only [assertStrings_map_str, herr]
    refine ⟨hfp, fun s => ?_⟩
    rw [hfp]
    rfl

/-- Witness of C8: the page of the one key `a1`, once against a store that
answers `v1` and once against a store whose `Get` fails. -/
theorem C8_page_fetcher_witness :
    (fetchPage memOps halfFailingRemote [.str ['a', '1']]).events
        = [.pipeExec [['a', '1']], .batchWrite [(['a', '1'], ['v', '1'])]] ∧
    (fetchPage memOps halfFailingRemote [.str ['a', '1']]).status
        = .written [(['a', '1'], ['v', '1'])] ∧
    fetchPage memOps bothFailingRemote [.str ['a', '1']]
        = { events := [.pipeExec [['a', '1']]], status := .failed "redis: nil" } :=
  ⟨((C8_page_fetcher memOps halfFailingRemote).2.1 [['a', '1']] [['v', '1']]
      (by simp) rfl).2.2.2.1,
   (((C8_page_fetcher memOps halfFailingRemote).2.1 [['a', '1']] [['v', '1']]
      (by simp) rfl).2.2.2.2.2 rfl).1,
   ((C8_page_fetcher memOps bothFailingRemote).2.2 [['a', '1']] "redis: nil"
      (by simp) rfl).1⟩

/-! ## Lemmas on the scanner -/

theorem scanLoop_answers (env : Remote) (addr pattern : Str) (last : List Iface) :
    ∀ (mid : List (Str × List Iface)) (fuel n : Nat) (cursor : Str),
    Answers env addr pattern n cursor mid last → mid.length < fuel →
    scanLoop env addr pattern fuel n cursor =
      { requests := (cursor :: mid.map Prod.fst).map
          (fun c => Event.scan addr c pattern REMOTE_BATCH_COUNT),
        pages := mid.map Prod.snd ++ [last],
        status := .done } := by
  intro mid
  induction mid with
  | nil =>
    intro fuel n cursor h hf
    cases fuel with
    | zero => simp at hf
    | succ fuel =>
      simp only [Answers] at h
      simp [scanLoop, h]
  | cons x rest ih =>
    intro fuel n cursor h hf
    obtain ⟨next, keys⟩ := x
    cases fuel with
    | zero => simp at hf
    | succ fuel =>
      simp only [Answers] at h
      obtain ⟨h1, h2, h3⟩ := h
      have := ih fuel (n + 1) next h3 (by simpa using hf)
      simp [scanLoop, h1, h2, this]

theorem scanLoop_first_request (env : Remote) (addr pattern : Str) (fuel n : Nat)
    (cursor : Str) :
    (scanLoop env addr pattern (fuel + 1) n cursor).requests.head?
      = some (Event.scan addr cursor pattern REMOTE_BATCH_COUNT) := by
  simp only [scanLoop]
  split
  · rfl
  · split
    · rfl
    · split
      · split
        · split <;> rfl
        · rfl
      · rfl

theorem fetchPage_one_key {ι : Type} (ops : CacheOps ι) (env : Remote) (k v : Str)
    (hk : env.get k = .ok v) (hw : ops.writeErr [(k, v)] = none) :
    fetchPage ops env [.str k]
      = { events := [.pipeExec [k], .batchWrite [(k, v)]], status := .written [(k, v)] } := by
  simp [fetchPage, assertStrings, pipeExec, hk, putAll, hw]

/-- C7: the scan loop of one node.  It starts with the cursor `"0"` and sends
at least one request.  When the node answers with two-element responses, a
string cursor and a list of keys each, of which the cursors of `mid` are not
`"0"` and the one after them is `"0"`, then (given fuel for these requests)
the loop sends exactly one request per response, the first with `"0"` and
every further one with the cursor the response before returned, hands every
page, the last one too, to a fetcher, in order, and ends after the response
with the cursor `"0"`; whether a page is empty plays no role.
In particular, for a cluster of one node that answers in 3 pages of one key
each, only the third with cursor `"0"`, with the three values fetched and
written without failure: the build returns without error under every schedule,
its trace holds exactly 3 scan requests, and all 3 keys are in the cache with
their values. -/
theorem C7_scan_loop {ι : Type} (ops : CacheOps ι) (env : Remote) (addr pattern : Str) :
    (∀ fuel, (scanLoop env addr pattern (fuel + 1) 0 cursorZero).requests.head?
      = some (Event.scan addr cursorZero pattern REMOTE_BATCH_COUNT)) ∧
    (∀ mid last fuel, Answers env addr pattern 0 cursorZero mid last → mid.length < fuel →
      scanLoop env addr pattern fuel 0 cursorZero =
        { requests := (cursorZero :: mid.map Prod.fst).map
            (fun c => Event.scan addr c pattern REMOTE_BATCH_COUNT),
          pages := mid.map Prod.snd ++ [last],
          status := .done }) ∧
    (∀ cache seeds sched fuel pfx start shard c₁ c₂ k₁ k₂ k₃ v₁ v₂ v₃,
      env.clusterSlots = .ok [shard] → pickNode (seeds 0) shard = some { Addr := addr } →
      pattern = scanPattern pfx start →
      Answers env addr pattern 0 cursorZero [(c₁, [.str k₁]), (c₂, [.str k₂])] [.str k₃] →
      env.get k₁ = .ok v₁ → env.get k₂ = .ok v₂ → env.get k₃ = .ok v₃ →
      (∀ b, ops.writeErr b = none) → 3 ≤ fuel →
      ∃ b, newRemoteIterator ops env cache seeds sched fuel pfx start = .returned b ∧
        b.trace = [.clusterSlots,
          .scan addr cursorZero pattern REMOTE_BATCH_COUNT,
          .scan addr c₁ pattern REMOTE_BATCH_COUNT,
          .scan addr c₂ pattern REMOTE_BATCH_COUNT,
          .pipeExec [k₁], .batchWrite [(k₁, v₁)],
          .pipeExec [k₂], .batchWrite [(k₂, v₂)],
          .pipeExec [k₃], .batchWrite [(k₃, v₃)],
          .cacheIterator pfx start] ∧
        b.recorded = [] ∧ b.it.err = none ∧
        b.it.cacheIt = some (ops.newIterator b.cache pfx start) ∧
        cacheGet b.cache k₁ = some v₁ ∧ cacheGet b.cache k₂ = some v₂ ∧
        cacheGet b.cache k₃ = some v₃) := by
  refine ⟨fun fuel => scanLoop_first_request env addr pattern fuel 0 cursorZero,
    fun mid last fuel h hf => scanLoop_answers env addr pattern last mid fuel 0 cursorZero h hf,
    ?_⟩
  intro cache seeds sched fuel pfx start shard c₁ c₂ k₁ k₂ k₃ v₁ v₂ v₃ hslots hpick hpat hans
    h₁ h₂ h₃ hw hfuel
  subst hpat
  have hrun := scanLoop_answers env addr (scanPattern pfx start) [.str k₃]
    [(c₁, [.str k₁]), (c₂, [.str k₂])] fuel 0 cursorZero hans (by simpa using hfuel)
  have hruns : scanShards env seeds (scanPattern pfx start) fuel 0 [shard]
      = [{ requests := [.scan addr cursorZero (scanPattern pfx start) REMOTE_BATCH_COUNT,
            .scan addr c₁ (scanPattern pfx start) REMOTE_BATCH_COUNT,
            .scan addr c₂ (scanPattern pfx start) REMOTE_BATCH_COUNT],
           pages := [[.str k₁], [.str k₂], [.str k₃]], status := .done }] := by
    simp [scanShards, hpick, hrun]
  have hf₁ := fetchPage_one_key ops env k₁ v₁ h₁ (hw _)
  have hf₂ := fetchPage_one_key ops env k₂ v₂ h₂ (hw _)
  have hf₃ := fetchPage_one_key ops env k₃ v₃ h₃ (hw _)
  have heff : buildEffects ops env
      (scanShards env seeds (scanPattern pfx start) fuel 0 [shard])
      = [.write [(k₁, v₁)], .write [(k₂, v₂)], .write [(k₃, v₃)]] := by
    rw [hruns]
    simp [buildEffects, pagesEffects, hf₁, hf₂, hf₃, fetchEffect, scanEffect]
  have hrec : (sharedAfter ops env cache sched
      (scanShards env seeds (scanPattern pfx start) fuel 0 [shard])).recorded = [] := by
    have := sharedAfter_recorded_perm ops env cache sched
      (scanShards env seeds (scanPattern pfx start) fuel 0 [shard])
    rw [heff] at this
    simpa [Effect.errors] using this
  have herr : (sharedAfter ops env cache sched
      (scanShards env seeds (scanPattern pfx start) fuel 0 [shard])).err = none := by
    rw [sharedAfter_err_last, hrec]
    rfl
  have hget : ∀ k v, env.get k = .ok v →
      (k, v) ∈ [(k₁, v₁), (k₂, v₂), (k₃, v₃)] →
      cacheGet (sharedAfter ops env cache sched
        (scanShards env seeds (scanPattern pfx start) fuel 0 [shard])).cache k = some v := by
    intro k v hk hmem
    rw [sharedAfter_cache]
    apply foldl_cacheWrite_get env.get k v hk
    · intro b hb
      rw [mem_batches_interleave, heff] at hb
      simp only [Effect.batches, List.mem_cons, List.mem_singleton, List.not_mem_nil,
        or_false] at hb
      rcases hb with hb | hb | hb <;> subst hb <;> intro kv hkv <;>
        simp only [List.mem_singleton] at hkv <;> subst hkv <;> assumption
    · left
      simp only [List.mem_cons, List.mem_singleton, List.not_mem_nil, or_false] at hmem
      rcases hmem with hm | hm | hm
      · exact ⟨[(k₁, v₁)], by rw [mem_batches_interleave, heff]; simp [Effect.batches],
          by simp [hm]⟩
      · exact ⟨[(k₂, v₂)], by rw [mem_batches_interleave, heff]; simp [Effect.batches],
          by simp [hm]⟩
      · exact ⟨[(k₃, v₃)], by rw [mem_batches_interleave, heff]; simp [Effect.batches],
          by simp [hm]⟩
  have hpanic : (scanShards env seeds (scanPattern pfx start) fuel 0 [shard]).any
      (ScanRun.panics ops env) = false := by
    rw [hruns]
    simp [ScanRun.panics, hf₁, hf₂, hf₃, FetchEnd.isPanic]
  have hstarved : (scanShards env seeds (scanPattern pfx start) fuel 0 [shard]).any
      ScanRun.starved = false := by
    rw [hruns]
    simp [ScanRun.starved]
  have hev : buildEvents ops env (scanShards env seeds (scanPattern pfx start) fuel 0 [shard])
      = [.scan addr cursorZero (scanPattern pfx start) REMOTE_BATCH_COUNT,
          .scan addr c₁ (scanPattern pfx start) REMOTE_BATCH_COUNT,
          .scan addr c₂ (scanPattern pfx start) REMOTE_BATCH_COUNT,
          .pipeExec [k₁], .batchWrite [(k₁, v₁)],
          .pipeExec [k₂], .batchWrite [(k₂, v₂)],
          .pipeExec [k₃], .batchWrite [(k₃, v₃)]] := by
    rw [hruns]
    simp [buildEvents, pagesEvents, hf₁, hf₂, hf₃]
  unfold newRemoteIterator
  simp only [hslots, hpanic, hstarved, herr]
  refine ⟨_, rfl, ?_, hrec, rfl, rfl, ?_, ?_, ?_⟩
  · simp [hev]
  · exact hget k₁ v₁ h₁ (by simp)
  · exact hget k₂ v₂ h₂ (by simp)
  · exact hget k₃ v₃ h₃ (by simp)

/-- Witness of C7: the node of `threePageRemote` (three pages of one key), the
node of `emptyPageRemote` (an empty first page with the cursor `"7"`), and
the build over `threePageRemote` under the schedule that lets the fetcher of
the third page write first. -/
theorem C7_scan_loop_witness :
    scanLoop threePageRemote ['n', '1'] ['*'] 3 0 cursorZero =
      { requests := [.scan ['n', '1'] ['0'] ['*'] REMOTE_BATCH_COUNT,
                     .scan ['n', '1'] ['1'] ['*'] REMOTE_BATCH_COUNT,
                     .scan ['n', '1'] ['2'] ['*'] REMOTE_BATCH_COUNT],
        pages := [[.str ['k', '1']], [.str ['k', '2']], [.str ['k', '3']]],
        status := .done } ∧
    scanLoop emptyPageRemote ['n', '1'] ['*'] 2 0 cursorZero =
      { requests := [.scan ['n', '1'] ['0'] ['*'] REMOTE_BATCH_COUNT,
                     .scan ['n', '1'] ['7'] ['*'] REMOTE_BATCH_COUNT],
        pages := [[], [.str ['k', '1']]],
        status := .done } ∧
    ∃ b, newRemoteIterator memOps threePageRemote [] (fun _ => 0) [2, 0] 3 none none
        = .returned b ∧
      b.trace = [.clusterSlots,
        .scan ['n', '1'] cursorZero ['*'] REMOTE_BATCH_COUNT,
        .scan ['n', '1'] ['1'] ['*'] REMOTE_BATCH_COUNT,
        .scan ['n', '1'] ['2'] ['*'] REMOTE_BATCH_COUNT,
        .pipeExec [['k', '1']], .batchWrite [(['k', '1'], ['v', 'k', '1'])],
        .pipeExec [['k', '2']], .batchWrite [(['k', '2'], ['v', 'k', '2'])],
        .pipeExec [['k', '3']], .batchWrite [(['k', '3'], ['v', 'k', '3'])],
        .cacheIterator none none] ∧
      b.recorded = [] ∧ b.it.err = none ∧
      b.it.cacheIt = some (memOps.newIterator b.cache none none) ∧
      cacheGet b.cache ['k', '1'] = some ['v', 'k', '1'] ∧
      cacheGet b.cache ['k', '2'] = some ['v', 'k', '2'] ∧
      cacheGet b.cache ['k', '3'] = some ['v', 'k', '3'] :=
  ⟨(C7_scan_loop memOps threePageRemote ['n', '1'] ['*']).2.1
      [(['1'], [.str ['k', '1']]), (['2'], [.str ['k', '2']])] [.str ['k', '3']] 3
      ⟨rfl, by decide, rfl, by decide, rfl⟩ (by decide),
   (C7_scan_loop memOps emptyPageRemote ['n', '1'] ['*']).2.1
      [(['7'], [])] [.str ['k', '1']] 2 ⟨rfl, by decide, rfl⟩ (by decide),
   (C7_scan_loop memOps threePageRemote ['n', '1'] ['*']).2.2 [] (fun _ => 0) [2, 0] 3
      none none { Nodes := [{ Addr := ['n', '1'] }] } ['1'] ['2']
      ['k', '1'] ['k', '2'] ['k', '3'] ['v', 'k', '1'] ['v', 'k', '2'] ['v', 'k', '3']
      rfl rfl rfl ⟨rfl, by decide, rfl, by decide, rfl⟩ rfl rfl rfl (fun _ => rfl)
      (by decide)⟩

/-! ## Lemmas on the batches of a build -/

theorem batches_append (l₁ l₂ : List Effect) :
    Effect.batches (l₁ ++ l₂) = Effect.batches l₁ ++ Effect.batches l₂ := by
  induction l₁ with
  | nil => rfl
  | cons x xs ih => cases x <;> simp [Effect.batches, ih]

theorem pagesEffects_functional {ι : Type} (ops : CacheOps ι) (env : Remote)
    (pages : List (List Iface)) :
    ∀ b ∈ Effect.batches (pagesEffects ops env pages), Functional env.get b := by
  induction pages with
  | nil => intro b hb; simp [pagesEffects, Effect.batches] at hb
  | cons keys rest ih =>
    intro b hb
    simp only [pagesEffects, batches_append, List.mem_append] at hb
    rcases hb with hb | hb
    · cases hst : (fetchPage ops env keys).status with
      | written b' =>
        rw [hst] at hb
        simp only [fetchEffect, Effect.batches, List.mem_singleton] at hb
        subst hb
        exact fetchPage_written_functional ops env keys b hst
      | skipped => rw [hst] at hb; simp [fetchEffect, Effect.batches] at hb
      | failed e => rw [hst] at hb; simp [fetchEffect, Effect.batches] at hb
      | panicked => rw [hst] at hb; simp [fetchEffect, Effect.batches] at hb
    · exact ih b hb

theorem buildEffects_functional {ι : Type} (ops : CacheOps ι) (env : Remote)
    (runs : List ScanRun) :
    ∀ b ∈ Effect.batches (buildEffects ops env runs), Functional env.get b := by
  induction runs with
  | nil => intro b hb; simp [buildEffects, Effect.batches] at hb
  | cons run rest ih =>
    intro b hb
    simp only [buildEffects, batches_append, List.mem_append] at hb
    rcases hb with (hb | hb) | hb
    · exact pagesEffects_functional ops env run.pages b hb
    · cases hst : run.status <;> rw [hst] at hb <;> simp [scanEffect, Effect.batches] at hb
    · exact ih b hb


/-- C2 fails on the code.  The remote store holds the one key `bb`; the build
for prefix `b` and start `a` scans with the pattern `ba*` (line 108), which
`bb` does not match, although `bb` has the prefix `b` and lies after the start
(`ba ≤ bb`, and `a ≤ bb`).  Under every schedule the build returns a backed
iterator with no error recorded, and the cache does not hold `bb`. -/
theorem C2_key_after_start_not_cached (seeds : Nat → Nat) (sched : List Nat) (fuel : Nat) :
    newRemoteIterator memOps (oneNodeRemote [(['b', 'b'], ['v'])]) [] seeds sched (fuel + 1)
        (some ['b']) (some ['a'])
      = .returned
          { it := { cacheIt := some { pending := [], current := none },
                    pfx := some ['b'], start := some ['a'], err := none },
            cache := [], recorded := [],
            trace := [.clusterSlots, .scan ['n', '1'] ['0'] ['b', 'a', '*'] ['1', '0', '0'],
                      .cacheIterator (some ['b']) (some ['a'])] } ∧
    (oneNodeRemote [(['b', 'b'], ['v'])]).get ['b', 'b'] = .ok ['v'] ∧
    (['b'] : Str) <+: ['b', 'b'] ∧ (['b', 'a'] : Str) ≤ ['b', 'b'] ∧ (['a'] : Str) ≤ ['b', 'b'] ∧
    cacheGet ([] : Cache) ['b', 'b'] = none := by
  refine ⟨?_, rfl, by decide, by decide, by decide, rfl⟩
  have hrun : scanLoop (oneNodeRemote [(['b', 'b'], ['v'])]) ['n', '1']
      (scanPattern (some ['b']) (some ['a'])) (fuel + 1) 0 cursorZero
      = { requests := [.scan ['n', '1'] ['0'] ['b', 'a', '*'] ['1', '0', '0']],
          pages := [[]], status := .done } := by
    simp [scanLoop, oneNodeRemote, scanPattern, Slice.bytes, matchesPattern, cursorZero,
      REMOTE_BATCH_COUNT]
  have hruns : scanShards (oneNodeRemote [(['b', 'b'], ['v'])]) seeds
      (scanPattern (some ['b']) (some ['a'])) (fuel + 1) 0
      [{ Nodes := [{ Addr := ['n', '1'] }] }]
      = [{ requests := [.scan ['n', '1'] ['0'] ['b', 'a', '*'] ['1', '0', '0']],
           pages := [[]], status := .done }] := by
    simp [scanShards, pickNode, Nat.mod_one, hrun]
  have hslots : (oneNodeRemote [(['b', 'b'], ['v'])]).clusterSlots
      = .ok [{ Nodes := [{ Addr := ['n', '1'] }] }] := rfl
  unfold newRemoteIterator
  simp only [hslots, hruns]
  simp [ScanRun.panics, ScanRun.starved, fetchPage, FetchEnd.isPanic, sharedAfter,
    buildEffects, pagesEffects, fetchEffect, scanEffect, interleave, buildEvents, pagesEvents,
    memOps, Slice.bytes]

/-- C9 fails on the code.  A scan response of two elements whose first element
is not a string passes the length check of line 118 and makes the assertion
`res[0].(string)` of line 123 panic: no error is assigned to `it.err`, and the
build does not return an iterator at all, under any schedule.  (A response of
three elements, by contrast, does record the format error.) -/
theorem C9_ill_typed_response_panics (seeds : Nat → Nat) (sched : List Nat) (fuel : Nat) :
    illTypedRemote.scan ['n', '1'] 0 cursorZero ['*'] REMOTE_BATCH_COUNT
      = .ok [.other 7, .slice []] ∧
    scanLoop illTypedRemote ['n', '1'] ['*'] (fuel + 1) 0 cursorZero
      = { requests := [.scan ['n', '1'] cursorZero ['*'] REMOTE_BATCH_COUNT], pages := [],
          status := .panicked } ∧
    scanEffect (scanLoop illTypedRemote ['n', '1'] ['*'] (fuel + 1) 0 cursorZero).status = [] ∧
    (newRemoteIterator memOps illTypedRemote [] seeds sched (fuel + 1) none none
      : Outcome (Built MemIter)) = .panicked ∧
    scanLoop wrongLengthRemote ['n', '1'] ['*'] (fuel + 1) 0 cursorZero
      = { requests := [.scan ['n', '1'] cursorZero ['*'] REMOTE_BATCH_COUNT], pages := [],
          status := .failed "remotedb iterator scan result format error" } := by
  have hrun : scanLoop illTypedRemote ['n', '1'] ['*'] (fuel + 1) 0 cursorZero
      = { requests := [.scan ['n', '1'] cursorZero ['*'] REMOTE_BATCH_COUNT], pages := [],
          status := .panicked } := by
    simp [scanLoop, illTypedRemote]
  refine ⟨rfl, hrun, by rw [hrun]; rfl, ?_, by simp [scanLoop, wrongLengthRemote]⟩
  have hruns : scanShards illTypedRemote seeds (scanPattern none none) (fuel + 1) 0
      [{ Nodes := [{ Addr := ['n', '1'] }] }]
      = [{ requests := [.scan ['n', '1'] cursorZero ['*'] REMOTE_BATCH_COUNT], pages := [],
           status := .panicked }] := by
    have hp : scanPattern none none = ['*'] := rfl
    simp [scanShards, pickNode, Nat.mod_one, hp, hrun]
  have hslots : illTypedRemote.clusterSlots = .ok [{ Nodes := [{ Addr := ['n', '1'] }] }] := rfl
  unfold newRemoteIterator
  simp only [hslots, hruns]
  simp [ScanRun.panics]

/-! ## Further facts about the embedding -/

/-- Every order of the pending effects is the order of some schedule. -/
theorem interleave_complete {α : Type} : ∀ (order l : List α), order.Perm l →
    ∃ sched, interleave sched l = order
  | [], l, h => by
    have : l = [] := List.Perm.eq_nil (List.Perm.symm h)
    subst this
    exact ⟨[], rfl⟩
  | y :: rest, l, h => by
    cases l with
    | nil => exact absurd (List.Perm.eq_nil h) (by simp)
    | cons x xs =>
      have hy : y ∈ x :: xs := h.subset (by simp)
      obtain ⟨i, hi, hget⟩ := List.getElem_of_mem hy
      have hget? : (x :: xs).get? i = some y := by
        rw [List.get?_eq_getElem?, List.getElem?_eq_getElem hi, hget]
      have hperm : ((x :: xs).eraseIdx i).Perm rest :=
        List.Perm.cons_inv ((perm_cons_eraseIdx (x :: xs) i y hget?).trans h.symm)
      obtain ⟨sched, hs⟩ := interleave_complete rest ((x :: xs).eraseIdx i) hperm.symm
      refine ⟨i :: sched, ?_⟩
      have hmod : i % (xs.length + 1) = i := Nat.mod_eq_of_lt (by simpa using hi)
      have hget2 : (x :: xs)[i]? = some y := by
        rw [List.getElem?_eq_getElem hi, hget]
      simp only [interleave, hmod, hget2, hs]

/-- More fuel does not change the run of a scanner that ended within its fuel. -/
theorem scanLoop_fuel_mono (env : Remote) (addr pattern : Str) :
    ∀ (fuel n : Nat) (cursor : Str),
    (scanLoop env addr pattern fuel n cursor).status ≠ .outOfFuel →
    ∀ more, scanLoop env addr pattern (fuel + more) n cursor
      = scanLoop env addr pattern fuel n cursor := by
  intro fuel
  induction fuel with
  | zero => intro n cursor h; simp [scanLoop] at h
  | succ fuel ih =>
    intro n cursor h more
    have hadd : fuel + 1 + more = (fuel + more) + 1 := by omega
    rw [hadd]
    simp only [scanLoop] at h ⊢
    split
    · rfl
    · split
      · rfl
      · split
        · split
          · split
            · rfl
            · rename_i _ res hres hlen _ next hnext _ keys hkeys hz
              rw [hres] at h
              simp only [hlen, hnext, hkeys, hz, if_false] at h
              rw [ih (n + 1) next h more]
          · rfl
        · rfl

/-- The part of C9 that holds: when, after the responses of `mid`, a scan
request fails, or is answered with a number of elements other than two, the
loop assigns the error, sends no further request, and has handed to fetchers
exactly the pages of the earlier responses. -/
theorem scanLoop_failure_ends_loop (env : Remote) (addr pattern : Str) (e : Error) :
    ∀ (mid : List (Str × List Iface)) (fuel n : Nat) (cursor : Str),
    Fails env addr pattern n cursor mid e → mid.length < fuel →
    scanLoop env addr pattern fuel n cursor =
      { requests := (cursor :: mid.map Prod.fst).map
          (fun c => Event.scan addr c pattern REMOTE_BATCH_COUNT),
        pages := mid.map Prod.snd,
        status := .failed e } := by
  intro mid
  induction mid with
  | nil =>
    intro fuel n cursor h hf
    cases fuel with
    | zero => simp at hf
    | succ fuel =>
      simp only [Fails] at h
      rcases h with h | ⟨res, h, hlen, he⟩
      · simp [scanLoop, h]
      · simp [scanLoop, h, hlen, he]
  | cons x rest ih =>
    intro fuel n cursor h hf
    obtain ⟨next, keys⟩ := x
    cases fuel with
    | zero => simp at hf
    | succ fuel =>
      simp only [Fails] at h
      obtain ⟨h1, h2, h3⟩ := h
      have := ih fuel (n + 1) next h3 (by simpa using hf)
      simp [scanLoop, h1, h2, this]

theorem errors_append (l₁ l₂ : List Effect) :
    Effect.errors (l₁ ++ l₂) = Effect.errors l₁ ++ Effect.errors l₂ := by
  induction l₁ with
  | nil => rfl
  | cons x xs ih => cases x <;> simp [Effect.errors, ih]

theorem assertStrings_mem : ∀ (keys : List Iface) (ks : List Str) (k : Str),
    assertStrings keys = some ks → Iface.str k ∈ keys → k ∈ ks
  | [], _, _, _, h => by simp at h
  | .str s :: rest, ks, k, has, h => by
    simp only [assertStrings] at has
    split at has
    · rename_i ks' hks'
      cases has
      simp only [List.mem_cons, Iface.str.injEq] at h
      rcases h with h | h
      · simp [h]
      · exact List.mem_cons_of_mem _ (assertStrings_mem rest ks' k hks' h)
    · cases has
  | .slice _ :: _, _, _, has, _ => by simp [assertStrings] at has
  | .other _ :: _, _, _, has, _ => by simp [assertStrings] at has

theorem putAll_mem : ∀ (ks vals : List Str) (b : Batch) (k : Str),
    putAll ks vals = some b → k ∈ ks → ∃ v, (k, v) ∈ b
  | [], _, _, _, _, h => by simp at h
  | _ :: _, [], _, _, hp, _ => by simp [putAll] at hp
  | a :: ks, v :: vs, b, k, hp, h => by
    simp only [putAll] at hp
    split at hp
    · rename_i b' hb'
      cases hp
      simp only [List.mem_cons] at h
      rcases h with h | h
      · exact ⟨v, by simp [h]⟩
      · obtain ⟨w, hw⟩ := putAll_mem ks vs b' k hb' h
        exact ⟨w, List.mem_cons_of_mem _ hw⟩
    · cases hp

theorem fetchPage_written_mem {ι : Type} (ops : CacheOps ι) (env : Remote)
    (keys : List Iface) (b : Batch) (k : Str)
    (h : (fetchPage ops env keys).status = .written b) (hk : Iface.str k ∈ keys) :
    ∃ v, (k, v) ∈ b := by
  unfold fetchPage at h
  split at h
  · cases h
  · split at h
    · cases h
    · rename_i ks hks
      split at h
      · cases h
      · rename_i vals _
        split at h
        · cases h
        · rename_i b' hb'
          split at h
          · cases h
          · simp only [FetchEnd.written.injEq] at h
            subst h
            exact putAll_mem ks vals b' k hb' (assertStrings_mem keys ks k hks hk)

theorem fetchPage_not_skipped {ι : Type} (ops : CacheOps ι) (env : Remote)
    (keys : List Iface) (x : Iface) (hx : x ∈ keys) :
    (fetchPage ops env keys).status ≠ .skipped := by
  have hne : ¬ keys.length = 0 := by
    intro h0
    rw [List.length_eq_zero] at h0
    subst h0
    simp at hx
  unfold fetchPage
  rw [if_neg hne]
  split
  · simp
  · split
    · simp
    · split
      · simp
      · split <;> simp

/-- What the build does achieve where C2 fails: when a build returns with no
error recorded, every key that some scan page returned is in the cache with
the value the remote store holds for it. -/
theorem scanned_keys_cached {ι : Type} (ops : CacheOps ι) (env : Remote) (cache : Cache)
    (seeds : Nat → Nat) (sched : List Nat) (fuel : Nat) (pfx start : Slice) (b : Built ι)
    (shards : List ClusterSlot)
    (h : newRemoteIterator ops env cache seeds sched fuel pfx start = .returned b)
    (hs : env.clusterSlots = .ok shards) (hrec : b.recorded = []) :
    ∀ run ∈ scanShards env seeds (scanPattern pfx start) fuel 0 shards,
    ∀ page ∈ run.pages, ∀ k, Iface.str k ∈ page →
      ∃ v, env.get k = .ok v ∧ cacheGet b.cache k = some v := by
  intro run hrun page hpage k hk
  rcases newRemoteIterator_returned ops env cache seeds sched fuel pfx start b h with
    ⟨e, he, _⟩ | ⟨shards', hs', hp, _, hc, hr, _⟩
  · rw [hs] at he
    cases he
  rw [hs] at hs'
  cases hs'
  -- the fetcher of the page neither panicked nor failed
  have hnp : (fetchPage ops env page).status.isPanic = false := by
    rw [List.any_eq_false] at hp
    have := hp run hrun
    simp only [ScanRun.panics, Bool.or_eq_true, not_or, Bool.not_eq_true] at this
    have h2 := this.2
    rw [List.any_eq_false] at h2
    simpa using h2 page hpage
  have herrs : Effect.errors (buildEffects ops env
      (scanShards env seeds (scanPattern pfx start) fuel 0 shards)) = [] := by
    have := sharedAfter_recorded_perm ops env cache sched
      (scanShards env seeds (scanPattern pfx start) fuel 0 shards)
    rw [← hr, hrec] at this
    exact List.Perm.eq_nil this.symm
  have hsub : ∀ (runs : List ScanRun), run ∈ runs →
      Effect.errors (buildEffects ops env runs) = [] →
      (∀ e, (fetchPage ops env page).status ≠ .failed e) ∧
      (∀ b', (fetchPage ops env page).status = .written b' →
        b' ∈ Effect.batches (buildEffects ops env runs)) := by
    intro runs
    induction runs with
    | nil => intro hmem; simp at hmem
    | cons r rest ih =>
      intro hmem herr
      simp only [buildEffects, errors_append, List.append_eq_nil] at herr
      simp only [List.mem_cons] at hmem
      rcases hmem with hmem | hmem
      · subst hmem
        have hpg : ∀ (pages : List (List Iface)), page ∈ pages →
            Effect.errors (pagesEffects ops env pages) = [] →
            (∀ e, (fetchPage ops env page).status ≠ .failed e) ∧
            (∀ b', (fetchPage ops env page).status = .written b' →
              b' ∈ Effect.batches (pagesEffects ops env pages)) := by
          intro pages
          induction pages with
          | nil => intro hm; simp at hm
          | cons p ps ihp =>
            intro hm hpe
            simp only [pagesEffects, errors_append, List.append_eq_nil] at hpe
            simp only [List.mem_cons] at hm
            rcases hm with hm | hm
            · subst hm
              constructor
              · intro e hst
                rw [hst] at hpe
                simp [fetchEffect, Effect.errors] at hpe
              · intro b' hst
                simp [pagesEffects, batches_append, hst, fetchEffect, Effect.batches]
            · obtain ⟨h1, h2⟩ := ihp hm hpe.2
              refine ⟨h1, fun b' hst => ?_⟩
              simp only [pagesEffects, batches_append, List.mem_append]
              exact Or.inr (h2 b' hst)
        obtain ⟨h1, h2⟩ := hpg run.pages hpage herr.1.1
        refine ⟨h1, fun b' hst => ?_⟩
        simp only [buildEffects, batches_append, List.mem_append]
        exact Or.inl (Or.inl (h2 b' hst))
      · obtain ⟨h1, h2⟩ := ih hmem herr.2
        refine ⟨h1, fun b' hst => ?_⟩
        simp only [buildEffects, batches_append, List.mem_append]
        exact Or.inr (h2 b' hst)
  obtain ⟨hnf, hbatch⟩ := hsub _ hrun herrs
  cases hst : (fetchPage ops env page).status with
  | skipped => exact absurd hst (fetchPage_not_skipped ops env page _ hk)
  | failed e => exact absurd hst (hnf e)
  | panicked => rw [hst] at hnp; simp [FetchEnd.isPanic] at hnp
  | written b' =>
    obtain ⟨v, hv⟩ := fetchPage_written_mem ops env page b' k hst hk
    have hfun := fetchPage_written_functional ops env page b' hst
    refine ⟨v, hfun (k, v) hv, ?_⟩
    rw [hc, sharedAfter_cache]
    apply foldl_cacheWrite_get env.get k v (hfun (k, v) hv)
    · intro b'' hb''
      rw [mem_batches_interleave] at hb''
      exact buildEffects_functional ops env _ b'' hb''
    · exact Or.inl ⟨b', by rw [mem_batches_interleave]; exact hbatch b' hst, hv⟩

/-! ## Every failure is recorded -/

theorem scanShards_mem (env : Remote) (seeds : Nat → Nat) (pattern : Str) (fuel : Nat) :
    ∀ (shards : List ClusterSlot) (i j : Nat) (shard : ClusterSlot) (node : Node),
    shards.get? j = some shard → pickNode (seeds (i + j)) shard = some node →
    scanLoop env node.Addr pattern fuel 0 cursorZero
      ∈ scanShards env seeds pattern fuel i shards := by
  intro shards
  induction shards with
  | nil => intro i j shard node h; simp at h
  | cons s rest ih =>
    intro i j shard node hget hpick
    cases j with
    | zero =>
      simp only [List.get?_cons_zero, Option.some.injEq] at hget
      subst hget
      simp only [Nat.add_zero] at hpick
      simp [scanShards, hpick]
    | succ j =>
      simp only [List.get?_cons_succ] at hget
      have hpick' : pickNode (seeds (i + 1 + j)) shard = some node := by
        have : i + 1 + j = i + (j + 1) := by omega
        rw [this]
        exact hpick
      simp only [scanShards, List.mem_cons]
      exact Or.inr (ih (i + 1) j shard node hget hpick')

theorem scanLoop_starved_of_fails (env : Remote) (addr pattern : Str) (e : Error) :
    ∀ (mid : List (Str × List Iface)) (fuel n : Nat) (cursor : Str),
    Fails env addr pattern n cursor mid e → fuel ≤ mid.length →
    (scanLoop env addr pattern fuel n cursor).status = .outOfFuel := by
  intro mid
  induction mid with
  | nil =>
    intro fuel n cursor _ hf
    have : fuel = 0 := by simpa using hf
    subst this
    rfl
  | cons x rest ih =>
    intro fuel n cursor h hf
    obtain ⟨next, keys⟩ := x
    cases fuel with
    | zero => rfl
    | succ fuel =>
      simp only [Fails] at h
      obtain ⟨h1, h2, h3⟩ := h
      have := ih fuel (n + 1) next h3 (by simpa using hf)
      simp [scanLoop, h1, h2, this]

theorem mem_errors_pages {ι : Type} (ops : CacheOps ι) (env : Remote) (e : Error)
    (page : List Iface) (hst : (fetchPage ops env page).status = .failed e) :
    ∀ (pages : List (List Iface)), page ∈ pages →
    e ∈ Effect.errors (pagesEffects ops env pages) := by
  intro pages
  induction pages with
  | nil => intro h; simp at h
  | cons p ps ih =>
    intro h
    simp only [List.mem_cons] at h
    simp only [pagesEffects, errors_append, List.mem_append]
    rcases h with h | h
    · subst h
      left
      rw [hst]
      simp [fetchEffect, Effect.errors]
    · exact Or.inr (ih h)

theorem mem_errors_of_fetch_failed {ι : Type} (ops : CacheOps ι) (env : Remote) (e : Error)
    (run : ScanRun) (page : List Iface) (hpage : page ∈ run.pages)
    (hst : (fetchPage ops env page).status = .failed e) :
    ∀ (runs : List ScanRun), run ∈ runs → e ∈ Effect.errors (buildEffects ops env runs) := by
  intro runs
  induction runs with
  | nil => intro h; simp at h
  | cons r rest ih =>
    intro h
    simp only [List.mem_cons] at h
    simp only [buildEffects, errors_append, List.mem_append]
    rcases h with h | h
    · subst h
      exact Or.inl (Or.inl (mem_errors_pages ops env e page hst run.pages hpage))
    · exact Or.inr (ih h)

theorem mem_errors_of_scan_failed {ι : Type} (ops : CacheOps ι) (env : Remote) (e : Error)
    (run : ScanRun) (hst : run.status = .failed e) :
    ∀ (runs : List ScanRun), run ∈ runs → e ∈ Effect.errors (buildEffects ops env runs) := by
  intro runs
  induction runs with
  | nil => intro h; simp at h
  | cons r rest ih =>
    intro h
    simp only [List.mem_cons] at h
    simp only [buildEffects, errors_append, List.mem_append]
    rcases h with h | h
    · subst h
      refine Or.inl (Or.inr ?_)
      rw [hst]
      simp [scanEffect, Effect.errors]
    · exact Or.inr (ih h)

theorem fetchPage_get_failed {ι : Type} (ops : CacheOps ι) (env : Remote) (ks : List Str)
    (e : Error) (hne : ks ≠ []) (h : pipeExec env.get ks = .error e) :
    (fetchPage ops env (ks.map Iface.str)).status = .failed e := by
  have hne' : ¬ (List.map Iface.str ks).length = 0 := by simpa using hne
  unfold fetchPage
  rw [if_neg hne']
  simp only [assertStrings_map_str, h]

theorem fetchPage_write_failed {ι : Type} (ops : CacheOps ι) (env : Remote) (ks vals : List Str)
    (e : Error) (hne : ks ≠ []) (h : pipeExec env.get ks = .ok vals)
    (hw : ops.writeErr (ks.zip vals) = some e) :
    (fetchPage ops env (ks.map Iface.str)).status = .failed e := by
  have hne' : ¬ (List.map Iface.str ks).length = 0 := by simpa using hne
  unfold fetchPage
  rw [if_neg hne']
  simp only [assertStrings_map_str, h, putAll_of_length ks vals (pipeExec_length env.get ks vals h),
    hw]

/-- C1: the build of `newRemoteIterator`.
When `ClusterSlots` fails, the build returns at once, with that error in
`it.err` and `cacheIt` nil.  For every build that returns: the iterator is
backed, by `persistCache.NewIterator(prefix, start)`, exactly when no error was
assigned to `it.err` during the build; when one was assigned, `cacheIt` is nil,
and after any number of calls of `Next` the next `Next` returns false and `Key`
and `Value` return nil, whatever the cache holds.  And every failure is
assigned: the error of a scan request that fails, the format error of a scan
response that has not two elements (both after any number of good pages), the
error of the multi-get of a page and the error of the batch write of a page
are each among the errors assigned, so each leaves `cacheIt` nil. -/
theorem C1_backed_only_without_error {ι : Type} (ops : CacheOps ι) (env : Remote)
    (cache : Cache) (seeds : Nat → Nat) (sched : List Nat) (fuel : Nat) (pfx start : Slice) :
    (∀ e, env.clusterSlots = .error e →
      newRemoteIterator ops env cache seeds sched fuel pfx start
        = .returned { it := { cacheIt := none, pfx := pfx, start := start, err := some e },
                      cache := cache, recorded := [e], trace := [.clusterSlots] }) ∧
    (∀ b, newRemoteIterator ops env cache seeds sched fuel pfx start = .returned b →
      (b.recorded = [] → b.it.cacheIt = some (ops.newIterator b.cache pfx start)) ∧
      (b.it.cacheIt ≠ none → b.recorded = []) ∧
      (b.recorded ≠ [] → b.it.cacheIt = none ∧
        ∀ n, ((Iterator.afterNext ops n (.remote b.it)).Next ops).1 = false ∧
          (Iterator.afterNext ops n (.remote b.it)).Key ops = none ∧
          (Iterator.afterNext ops n (.remote b.it)).Value ops = none) ∧
      (∀ e, env.clusterSlots = .error e → b.recorded = [e] ∧ b.it.cacheIt = none) ∧
      (∀ shards, env.clusterSlots = .ok shards →
        (∀ i shard node mid e, shards.get? i = some shard →
          pickNode (seeds i) shard = some node →
          Fails env node.Addr (scanPattern pfx start) 0 cursorZero mid e →
          e ∈ b.recorded ∧ b.it.cacheIt = none) ∧
        (∀ run ∈ scanShards env seeds (scanPattern pfx start) fuel 0 shards,
          ∀ ks, ks.map Iface.str ∈ run.pages → ks ≠ [] →
          (∀ e, pipeExec env.get ks = .error e → e ∈ b.recorded ∧ b.it.cacheIt = none) ∧
          (∀ vals e, pipeExec env.get ks = .ok vals → ops.writeErr (ks.zip vals) = some e →
            e ∈ b.recorded ∧ b.it.cacheIt = none)))) := by
  constructor
  · intro e he
    unfold newRemoteIterator
    simp only [he]
  intro b h
  have key : (b.recorded = [] → b.it.cacheIt = some (ops.newIterator b.cache pfx start)) ∧
      (b.recorded ≠ [] → b.it.cacheIt = none) := by
    rcases newRemoteIterator_returned ops env cache seeds sched fuel pfx start b h with
      ⟨e, _, hb⟩ | ⟨shards, _, _, _, _, hrec, herr, _, _, hit⟩
    · subst hb
      simp
    · have hlast := sharedAfter_err_last ops env cache sched
        (scanShards env seeds (scanPattern pfx start) fuel 0 shards)
      rw [← herr, ← hrec] at hlast
      constructor
      · intro h0
        rw [h0] at hlast
        simp at hlast
        rw [hit, hlast]
      · intro h0
        cases he : b.it.err with
        | none =>
          rw [he] at hlast
          exact absurd (List.getLast?_eq_none_iff.mp hlast.symm) h0
        | some e => rw [hit, he]
  have hmem : ∀ e, e ∈ b.recorded → e ∈ b.recorded ∧ b.it.cacheIt = none :=
    fun e he => ⟨he, key.2 (List.ne_nil_of_mem he)⟩
  refine ⟨key.1, ?_, ?_, ?_, ?_⟩
  · intro hne
    by_contra h0
    exact hne (key.2 h0)
  · intro h0
    have hnil := key.2 h0
    refine ⟨hnil, fun n => ?_⟩
    rw [afterNext_unbacked ops b.it hnil n]
    simp [Iterator.Next, Iterator.Key, Iterator.Value, remoteIterator.Next,
      remoteIterator.Key, remoteIterator.Value, hnil]
  · intro e he
    rcases newRemoteIterator_returned ops env cache seeds sched fuel pfx start b h with
      ⟨e', he', hb⟩ | ⟨shards, hs, _⟩
    · rw [he] at he'
      cases he'
      subst hb
      exact ⟨rfl, rfl⟩
    · rw [he] at hs
      cases hs
  · intro shards hs
    rcases newRemoteIterator_returned ops env cache seeds sched fuel pfx start b h with
      ⟨e', he', _⟩ | ⟨shards', hs', _, hf, _, hrec, _⟩
    · rw [hs] at he'
      cases he'
    rw [hs] at hs'
    cases hs'
    have hperm := sharedAfter_recorded_perm ops env cache sched
      (scanShards env seeds (scanPattern pfx start) fuel 0 shards)
    rw [← hrec] at hperm
    constructor
    · intro i shard node mid e hget hpick hfails
      apply hmem
      rw [hperm.mem_iff]
      have hrun := scanShards_mem env seeds (scanPattern pfx start) fuel shards 0 i shard node
        hget (by simpa using hpick)
      apply mem_errors_of_scan_failed ops env e _ _ _ hrun
      by_cases hfuel : mid.length < fuel
      · rw [scanLoop_failure_ends_loop env node.Addr (scanPattern pfx start) e mid fuel 0
          cursorZero hfails hfuel]
      · have hst := scanLoop_starved_of_fails env node.Addr (scanPattern pfx start) e mid fuel 0
          cursorZero hfails (by omega)
        rw [List.any_eq_false] at hf
        have := hf _ hrun
        simp [ScanRun.starved, hst] at this
    · intro run hrun ks hpage hne
      constructor
      · intro e he
        apply hmem
        rw [hperm.mem_iff]
        exact mem_errors_of_fetch_failed ops env e run _ hpage
          (fetchPage_get_failed ops env ks e hne he) _ hrun
      · intro vals e hv hw
        apply hmem
        rw [hperm.mem_iff]
        exact mem_errors_of_fetch_failed ops env e run _ hpage
          (fetchPage_write_failed ops env ks vals e hne hv hw) _ hrun

/-- Witness of C1: a build whose `ClusterSlots` fails, on a cache that holds
an entry; a build of two shards of which one scan fails after the page of the
other shard was written to the cache; a build whose multi-get fails; and a
build whose batch write fails.  Each returns an unbacked iterator, and on the
second one `Next`, after two calls of `Next`, still returns false. -/
theorem C1_backed_only_without_error_witness :
    newRemoteIterator memOps slotsFailingRemote [(['a', '1'], ['v', '1'])] (fun _ => 0) [] 1
        none none
      = .returned
          { it := { cacheIt := none, pfx := none, start := none,
                    err := some "cluster slots: connection refused" },
            cache := [(['a', '1'], ['v', '1'])],
            recorded := ["cluster slots: connection refused"], trace := [.clusterSlots] } ∧
    newRemoteIterator memOps halfFailingRemote [] (fun _ => 0) [] 1 none none
      = .returned halfFailingBuilt ∧
    cacheGet halfFailingBuilt.cache ['a', '1'] = some ['v', '1'] ∧
    ("scan n2: connection reset" ∈ halfFailingBuilt.recorded ∧
      halfFailingBuilt.it.cacheIt = none) ∧
    (((Iterator.afterNext memOps 2 (.remote halfFailingBuilt.it)).Next memOps).1 = false ∧
      (Iterator.afterNext memOps 2 (.remote halfFailingBuilt.it)).Key memOps = none ∧
      (Iterator.afterNext memOps 2 (.remote halfFailingBuilt.it)).Value memOps = none) ∧
    newRemoteIterator memOps getFailingRemote [] (fun _ => 0) [] 1 none none
      = .returned getFailingBuilt ∧
    ("mget: connection reset" ∈ getFailingBuilt.recorded ∧ getFailingBuilt.it.cacheIt = none) ∧
    newRemoteIterator failingOps twoReplicaRemote [] (fun _ => 0) [] 1 none none
      = .returned writeFailedBuilt ∧
    ("persist cache: write failed" ∈ writeFailedBuilt.recorded ∧
      writeFailedBuilt.it.cacheIt = none) :=
  ⟨(C1_backed_only_without_error memOps slotsFailingRemote [(['a', '1'], ['v', '1'])]
      (fun _ => 0) [] 1 none none).1 _ rfl,
   rfl, rfl,
   ((((C1_backed_only_without_error memOps halfFailingRemote [] (fun _ => 0) [] 1
      none none).2 halfFailingBuilt rfl).2.2.2.2
      [{ Nodes := [{ Addr := ['n', '1'] }] }, { Nodes := [{ Addr := ['n', '2'] }] }] rfl).1
      1 { Nodes := [{ Addr := ['n', '2'] }] } { Addr := ['n', '2'] } []
      "scan n2: connection reset" rfl rfl (Or.inl rfl)),
   ((((C1_backed_only_without_error memOps halfFailingRemote [] (fun _ => 0) [] 1
      none none).2 halfFailingBuilt rfl).2.2.1 (by decide)).2 2),
   rfl,
   (((((C1_backed_only_without_error memOps getFailingRemote [] (fun _ => 0) [] 1
      none none).2 getFailingBuilt rfl).2.2.2.2
      [{ Nodes := [{ Addr := ['n', '1'] }, { Addr := ['n', '2'] }] }] rfl).2
      _ (List.Mem.head _) [['a', '1']] (List.Mem.head _) (by simp)).1
      "mget: connection reset" rfl),
   rfl,
   (((((C1_backed_only_without_error failingOps twoReplicaRemote [] (fun _ => 0) [] 1
      none none).2 writeFailedBuilt rfl).2.2.2.2
      [{ Nodes := [{ Addr := ['n', '1'] }, { Addr := ['n', '2'] }] }] rfl).2
      _ (List.Mem.head _) [['a', '1']] (List.Mem.head _) (by simp)).2
      [['v', '1']] "persist cache: write failed" rfl rfl)⟩

/-! ## Two builds over the same cluster -/

theorem newRemoteIterator_returns {ι : Type} (ops : CacheOps ι) (env : Remote) (cache : Cache)
    (seeds : Nat → Nat) (sched : List Nat) (fuel : Nat) (pfx start : Slice)
    (shards : List ClusterSlot) (hs : env.clusterSlots = .ok shards)
    (hp : (scanShards env seeds (scanPattern pfx start) fuel 0 shards).any
      (ScanRun.panics ops env) = false)
    (hf : (scanShards env seeds (scanPattern pfx start) fuel 0 shards).any ScanRun.starved
      = false) :
    ∃ b, newRemoteIterator ops env cache seeds sched fuel pfx start = .returned b ∧
      b.cache = (sharedAfter ops env cache sched
        (scanShards env seeds (scanPattern pfx start) fuel 0 shards)).cache := by
  unfold newRemoteIterator
  simp only [hs, hp, hf]
  cases (sharedAfter ops env cache sched
    (scanShards env seeds (scanPattern pfx start) fuel 0 shards)).err with
  | none => exact ⟨_, rfl, rfl⟩
  | some e => exact ⟨_, rfl, rfl⟩

theorem pickNode_none_iff (seed : Nat) (shard : ClusterSlot) :
    pickNode seed shard = none ↔ shard.Nodes.length = 0 := by
  unfold pickNode
  constructor
  · intro h
    by_contra h0
    rw [if_neg h0] at h
    rw [List.get?_eq_none] at h
    have := Nat.mod_lt seed (Nat.pos_of_ne_zero h0)
    omega
  · intro h
    rw [if_pos h]

theorem scanLoop_congr (env : Remote) (a₁ a₂ pattern : Str) (h : env.scan a₂ = env.scan a₁) :
    ∀ (fuel n : Nat) (cursor : Str),
    ScanRun.sameOutcome (scanLoop env a₂ pattern fuel n cursor)
      (scanLoop env a₁ pattern fuel n cursor) := by
  intro fuel
  induction fuel with
  | zero => intro n cursor; exact ⟨rfl, rfl⟩
  | succ fuel ih =>
    intro n cursor
    have ih' := ih (n + 1)
    simp only [ScanRun.sameOutcome] at ih' ⊢
    simp only [scanLoop, h]
    cases env.scan a₁ n cursor pattern REMOTE_BATCH_COUNT with
    | error e => exact ⟨rfl, rfl⟩
    | ok res =>
      simp only
      by_cases hlen : res.length ≠ 2
      · simp only [if_pos hlen, and_self]
      · simp only [if_neg hlen]
        cases res.get? 0 with
        | none => exact ⟨rfl, rfl⟩
        | some x =>
          cases x with
          | str next =>
            simp only
            cases res.get? 1 with
            | none => exact ⟨rfl, rfl⟩
            | some y =>
              cases y with
              | slice keys =>
                simp only
                by_cases hz : next = cursorZero
                · simp only [if_pos hz, and_self]
                · simp only [if_neg hz, (ih' next).1, (ih' next).2, and_self]
              | str _ => exact ⟨rfl, rfl⟩
              | other _ => exact ⟨rfl, rfl⟩
          | slice _ => exact ⟨rfl, rfl⟩
          | other _ => exact ⟨rfl, rfl⟩

theorem scanShards_sameOutcome (env : Remote) (seeds₁ seeds₂ : Nat → Nat) (pattern : Str)
    (fuel₁ fuel₂ : Nat) (hfuel : fuel₁ ≤ fuel₂) :
    ∀ (shards : List ClusterSlot) (i : Nat),
    (∀ j shard n₁ n₂, shards.get? j = some shard → pickNode (seeds₁ (i + j)) shard = some n₁ →
      pickNode (seeds₂ (i + j)) shard = some n₂ → env.scan n₂.Addr = env.scan n₁.Addr) →
    (scanShards env seeds₁ pattern fuel₁ i shards).any ScanRun.starved = false →
    List.Forall₂ ScanRun.sameOutcome (scanShards env seeds₂ pattern fuel₂ i shards)
      (scanShards env seeds₁ pattern fuel₁ i shards) := by
  intro shards
  induction shards with
  | nil => intro i _ _; exact List.Forall₂.nil
  | cons s rest ih =>
    intro i hscan hstarved
    simp only [scanShards, List.any_cons, Bool.or_eq_false_iff] at hstarved ⊢
    refine List.Forall₂.cons ?_ (ih (i + 1) ?_ hstarved.2)
    · cases h₁ : pickNode (seeds₁ i) s with
      | none =>
        have h₂ : pickNode (seeds₂ i) s = none :=
          (pickNode_none_iff _ _).mpr ((pickNode_none_iff _ _).mp h₁)
        rw [h₂]
        exact ⟨rfl, rfl⟩
      | some n₁ =>
        cases h₂ : pickNode (seeds₂ i) s with
        | none =>
          have : pickNode (seeds₁ i) s = none :=
            (pickNode_none_iff _ _).mpr ((pickNode_none_iff _ _).mp h₂)
          rw [h₁] at this
          cases this
        | some n₂ =>
          simp only
          have hs := hscan 0 s n₁ n₂ rfl (by simpa using h₁) (by simpa using h₂)
          have hst := hstarved.1
          rw [h₁] at hst
          simp only [ScanRun.starved] at hst
          have hne : (scanLoop env n₁.Addr pattern fuel₁ 0 cursorZero).status ≠ .outOfFuel := by
            intro h0
            rw [h0] at hst
            cases hst
          obtain ⟨more, rfl⟩ := Nat.exists_eq_add_of_le hfuel
          have hmono := scanLoop_fuel_mono env n₁.Addr pattern fuel₁ 0 cursorZero hne more
          have hc := scanLoop_congr env n₁.Addr n₂.Addr pattern hs (fuel₁ + more) 0 cursorZero
          rw [hmono] at hc
          exact hc
    · intro j shard n₁ n₂ hget hp₁ hp₂
      have e : i + 1 + j = i + (j + 1) := by omega
      rw [e] at hp₁ hp₂
      exact hscan (j + 1) shard n₁ n₂ (by simpa using hget) hp₁ hp₂

theorem fetchPage_isPanic_ops {ι₁ ι₂ : Type} (ops₁ : CacheOps ι₁) (ops₂ : CacheOps ι₂)
    (env : Remote) (keys : List Iface) :
    (fetchPage ops₂ env keys).status.isPanic = (fetchPage ops₁ env keys).status.isPanic := by
  unfold fetchPage
  split
  · rfl
  · split
    · rfl
    · split
      · rfl
      · split
        · rfl
        · cases ops₁.writeErr _ <;> cases ops₂.writeErr _ <;> rfl

theorem fetchPage_written_ops {ι₁ ι₂ : Type} (ops₁ : CacheOps ι₁) (ops₂ : CacheOps ι₂)
    (env : Remote) (keys : List Iface) (b : Batch)
    (hw : ∀ b, ops₂.writeErr b = none → ops₁.writeErr b = none)
    (h : (fetchPage ops₂ env keys).status = .written b) :
    (fetchPage ops₁ env keys).status = .written b := by
  unfold fetchPage at h ⊢
  split at h
  · cases h
  · rename_i hlen
    rw [if_neg hlen]
    split at h
    · cases h
    · rename_i ks hks
      split at h
      · cases h
      · rename_i vals hvals
        split at h
        · cases h
        · rename_i b' hb'
          split at h
          · cases h
          · rename_i hw₂
            simp only [FetchEnd.written.injEq] at h
            subst h
            simp only [hw b' hw₂]

theorem pagesEffects_batches_ops {ι₁ ι₂ : Type} (ops₁ : CacheOps ι₁) (ops₂ : CacheOps ι₂)
    (env : Remote) (hw : ∀ b, ops₂.writeErr b = none → ops₁.writeErr b = none)
    (pages : List (List Iface)) :
    ∀ b ∈ Effect.batches (pagesEffects ops₂ env pages),
      b ∈ Effect.batches (pagesEffects ops₁ env pages) := by
  induction pages with
  | nil => intro b hb; simp [pagesEffects, Effect.batches] at hb
  | cons keys rest ih =>
    intro b hb
    simp only [pagesEffects, batches_append, List.mem_append] at hb ⊢
    rcases hb with hb | hb
    · left
      cases hst : (fetchPage ops₂ env keys).status with
      | written b' =>
        rw [hst] at hb
        simp only [fetchEffect, Effect.batches, List.mem_singleton] at hb
        subst hb
        rw [fetchPage_written_ops ops₁ ops₂ env keys b hw hst]
        simp [fetchEffect, Effect.batches]
      | skipped => rw [hst] at hb; simp [fetchEffect, Effect.batches] at hb
      | failed e => rw [hst] at hb; simp [fetchEffect, Effect.batches] at hb
      | panicked => rw [hst] at hb; simp [fetchEffect, Effect.batches] at hb
    · exact Or.inr (ih b hb)

theorem buildEffects_batches_ops {ι₁ ι₂ : Type} (ops₁ : CacheOps ι₁) (ops₂ : CacheOps ι₂)
    (env : Remote) (hw : ∀ b, ops₂.writeErr b = none → ops₁.writeErr b = none)
    {runs₂ runs₁ : List ScanRun} (hruns : List.Forall₂ ScanRun.sameOutcome runs₂ runs₁) :
    ∀ b ∈ Effect.batches (buildEffects ops₂ env runs₂),
      b ∈ Effect.batches (buildEffects ops₁ env runs₁) := by
  induction hruns with
  | nil => intro b hb; simp [buildEffects, Effect.batches] at hb
  | @cons r₂ r₁ l₂ l₁ hr _ ih =>
    intro b hb
    simp only [buildEffects, batches_append, List.mem_append] at hb ⊢
    rcases hb with (hb | hb) | hb
    · rw [hr.1] at hb
      exact Or.inl (Or.inl (pagesEffects_batches_ops ops₁ ops₂ env hw r₁.pages b hb))
    · cases hst : r₂.status <;> rw [hst] at hb <;> simp [scanEffect, Effect.batches] at hb
    · exact Or.inr (ih b hb)

theorem panics_ops {ι₁ ι₂ : Type} (ops₁ : CacheOps ι₁) (ops₂ : CacheOps ι₂) (env : Remote)
    {runs₂ runs₁ : List ScanRun} (hruns : List.Forall₂ ScanRun.sameOutcome runs₂ runs₁) :
    runs₂.any (ScanRun.panics ops₂ env) = runs₁.any (ScanRun.panics ops₁ env) := by
  induction hruns with
  | nil => rfl
  | @cons r₂ r₁ l₂ l₁ hr _ ih =>
    have hfun : (fun keys => (fetchPage ops₂ env keys).status.isPanic)
        = (fun keys => (fetchPage ops₁ env keys).status.isPanic) :=
      funext (fun keys => fetchPage_isPanic_ops ops₁ ops₂ env keys)
    simp only [List.any_cons, ih, ScanRun.panics, hr.1, hr.2, hfun]

theorem starved_sameOutcome {runs₂ runs₁ : List ScanRun}
    (hruns : List.Forall₂ ScanRun.sameOutcome runs₂ runs₁) :
    runs₂.any ScanRun.starved = runs₁.any ScanRun.starved := by
  induction hruns with
  | nil => rfl
  | cons hr _ ih => simp only [List.any_cons, ih, ScanRun.starved, hr.2]

/-- C6, as the code has it: a build only writes batches of `Put`s to the
cache, so a key that was in the cache before the build is in it after.  And a
second build for the same prefix and start over the same remote cluster (same
topology and values, the replicas drawn by the two builds answering a scan
alike) returns as the first did and leaves the cache exactly as the first
build left it, whatever the two schedules are, provided every batch write
that succeeds in the second build also succeeded in the first (as when no
write fails in the first build, or the same writes fail in both).  The second
build is given at least the fuel of the first. -/
theorem C6_build_idempotent_same_writes {ι₁ ι₂ : Type} (ops₁ : CacheOps ι₁)
    (ops₂ : CacheOps ι₂) (env : Remote) (cache : Cache)
    (seeds₁ : Nat → Nat) (sched₁ : List Nat) (fuel₁ : Nat) (pfx start : Slice) (b₁ : Built ι₁)
    (h₁ : newRemoteIterator ops₁ env cache seeds₁ sched₁ fuel₁ pfx start = .returned b₁) :
    (∃ writes : List Batch, b₁.cache = writes.foldl cacheWrite cache) ∧
    (∀ k, cacheGet cache k ≠ none → cacheGet b₁.cache k ≠ none) ∧
    (∀ (seeds₂ : Nat → Nat) (sched₂ : List Nat) (fuel₂ : Nat), fuel₁ ≤ fuel₂ →
      (∀ b, ops₂.writeErr b = none → ops₁.writeErr b = none) →
      (∀ shards, env.clusterSlots = .ok shards →
        ∀ i shard n₁ n₂, shards.get? i = some shard → pickNode (seeds₁ i) shard = some n₁ →
          pickNode (seeds₂ i) shard = some n₂ → env.scan n₂.Addr = env.scan n₁.Addr) →
      ∃ b₂, newRemoteIterator ops₂ env b₁.cache seeds₂ sched₂ fuel₂ pfx start = .returned b₂ ∧
        b₂.cache = b₁.cache ∧ ∀ k, cacheGet b₂.cache k = cacheGet b₁.cache k) := by
  have hputs : ∃ writes : List Batch, b₁.cache = writes.foldl cacheWrite cache := by
    rcases newRemoteIterator_returned ops₁ env cache seeds₁ sched₁ fuel₁ pfx start b₁ h₁ with
      ⟨e, _, hb⟩ | ⟨shards, _, _, _, hc, _⟩
    · exact ⟨[], by subst hb; rfl⟩
    · exact ⟨_, by rw [hc, sharedAfter_cache]⟩
  refine ⟨hputs, ?_, ?_⟩
  · intro k hk
    obtain ⟨writes, hw⟩ := hputs
    rw [hw]
    exact foldl_cacheWrite_keeps writes cache k hk
  · intro seeds₂ sched₂ fuel₂ hfuel hwrite hscan
    have key : ∃ b₂, newRemoteIterator ops₂ env b₁.cache seeds₂ sched₂ fuel₂ pfx start
        = .returned b₂ ∧ b₂.cache = b₁.cache := by
      rcases newRemoteIterator_returned ops₁ env cache seeds₁ sched₁ fuel₁ pfx start b₁ h₁ with
        ⟨e, he, hb⟩ | ⟨shards, hs, hp, hf, hc, _⟩
      · refine ⟨{ it := { cacheIt := none, pfx := pfx, start := start, err := some e },
                  cache := b₁.cache, recorded := [e], trace := [.clusterSlots] }, ?_, rfl⟩
        unfold newRemoteIterator
        simp only [he]
      · have hR := scanShards_sameOutcome env seeds₁ seeds₂ (scanPattern pfx start) fuel₁ fuel₂
          hfuel shards 0
          (fun j shard n₁ n₂ hget hp₁ hp₂ =>
            hscan shards hs j shard n₁ n₂ hget (by simpa using hp₁) (by simpa using hp₂))
          hf
        have hp₂ := (panics_ops ops₁ ops₂ env hR).trans hp
        have hf₂ := (starved_sameOutcome hR).trans hf
        obtain ⟨b₂, hb₂, hc₂⟩ := newRemoteIterator_returns ops₂ env b₁.cache seeds₂ sched₂ fuel₂
          pfx start shards hs hp₂ hf₂
        refine ⟨b₂, hb₂, ?_⟩
        rw [hc₂, sharedAfter_cache]
        apply foldl_cacheWrite_same
        intro b hb kv hkv
        rw [mem_batches_interleave] at hb
        have hb₁ := buildEffects_batches_ops ops₁ ops₂ env hwrite hR b hb
        have hfun := buildEffects_functional ops₁ env _ b hb₁
        rw [hc, sharedAfter_cache]
        apply foldl_cacheWrite_get env.get kv.1 kv.2 (hfun kv hkv)
        · intro b' hb'
          rw [mem_batches_interleave] at hb'
          exact buildEffects_functional ops₁ env _ b' hb'
        · exact Or.inl ⟨b, by rw [mem_batches_interleave]; exact hb₁, hkv⟩
    obtain ⟨b₂, hb₂, hc₂⟩ := key
    exact ⟨b₂, hb₂, hc₂, fun k => by rw [hc₂]⟩

/-- Witness of C6 as amended: over `threePageRemote`, a first build on a cache
that holds the key `zz` keeps that key, and a second build under another
schedule returns with the cache of the first; over `twoReplicaRemote`, a
second build that draws the other replica `n2` does so too. -/
theorem C6_build_idempotent_same_writes_witness :
    newRemoteIterator memOps threePageRemote [(['z', 'z'], ['o'])] (fun _ => 0) [2, 0] 3
        none none = .returned threePageBuilt ∧
    cacheGet threePageBuilt.cache ['z', 'z'] ≠ none ∧
    (∃ b₂, newRemoteIterator memOps threePageRemote threePageBuilt.cache (fun _ => 0) [1] 4
        none none = .returned b₂ ∧
      b₂.cache = threePageBuilt.cache ∧
      ∀ k, cacheGet b₂.cache k = cacheGet threePageBuilt.cache k) ∧
    newRemoteIterator memOps twoReplicaRemote [] (fun _ => 0) [] 1 none none
      = .returned twoReplicaBuilt ∧
    (∃ b₂, newRemoteIterator memOps twoReplicaRemote twoReplicaBuilt.cache (fun _ => 1) [] 1
        none none = .returned b₂ ∧
      b₂.cache = twoReplicaBuilt.cache ∧
      ∀ k, cacheGet b₂.cache k = cacheGet twoReplicaBuilt.cache k) :=
  ⟨rfl,
   (C6_build_idempotent_same_writes memOps memOps threePageRemote [(['z', 'z'], ['o'])]
      (fun _ => 0) [2, 0] 3 none none threePageBuilt rfl).2.1 ['z', 'z'] (by decide),
   (C6_build_idempotent_same_writes memOps memOps threePageRemote [(['z', 'z'], ['o'])]
      (fun _ => 0) [2, 0] 3 none none threePageBuilt rfl).2.2 (fun _ => 0) [1] 4 (by decide)
      (fun _ h => h) (fun _ _ _ _ _ _ _ _ _ => rfl),
   rfl,
   (C6_build_idempotent_same_writes memOps memOps twoReplicaRemote [] (fun _ => 0) [] 1
      none none twoReplicaBuilt rfl).2.2 (fun _ => 1) [] 1 (by decide)
      (fun _ h => h) (fun _ _ _ _ _ _ _ _ _ => rfl)⟩

/-- C6 as stated fails: the remote store is the same for both builds, but the
batch write of the one page fails in the first build and succeeds in the
second; the first build leaves the cache empty, the second leaves the key
`a1` in it. -/
theorem C6_counterexample_write_fails_first :
    newRemoteIterator failingOps twoReplicaRemote [] (fun _ => 0) [] 1 none none
      = .returned writeFailedBuilt ∧
    newRemoteIterator memOps twoReplicaRemote writeFailedBuilt.cache (fun _ => 0) [] 1
        none none = .returned twoReplicaBuilt ∧
    twoReplicaBuilt.cache ≠ writeFailedBuilt.cache ∧
    cacheGet writeFailedBuilt.cache ['a', '1'] = none ∧
    cacheGet twoReplicaBuilt.cache ['a', '1'] = some ['v', '1'] :=
  ⟨rfl, rfl, by decide, rfl, rfl⟩

end RemoteDB
